import Mathlib

/-!
Verification of the europass-mcp structured-document translation engine.

The Python source (src/mcp_server.py, src/html_transform.py,
src/europass_validator.py) is shallowly embedded below: Python strings are
Lean `String`s (a list of characters, matching Python code-point semantics),
bytes are `Nat`s below 256, dictionaries are association lists with
insertion-order update semantics, and each translated function mirrors the
control flow of its source line by line.
-/

/-! ## String helpers (models of Python str primitives)

`pyLower`/`pyUpper` model `str.lower()`/`str.upper()` (ASCII model of the
case mapping, which is all the source tables use), `pyStrip` models
`str.strip()`, and `containsStr pat s` models Python `pat in s`.
-/

def pyLower (s : String) : String := String.mk (s.data.map Char.toLower)

def pyUpper (s : String) : String := String.mk (s.data.map Char.toUpper)

def pyStripL (cs : List Char) : List Char :=
  ((cs.dropWhile Char.isWhitespace).reverse.dropWhile Char.isWhitespace).reverse

def pyStrip (s : String) : String := String.mk (pyStripL s.data)

def containsSeq (pat : List Char) : List Char → Bool
  | [] => pat.isEmpty
  | c :: rest => pat.isPrefixOf (c :: rest) || containsSeq pat rest

def containsStr (pat s : String) : Bool := containsSeq pat.data s.data

def startsWithStr (pat s : String) : Bool := pat.data.isPrefixOf s.data

/-- Model of `xml.sax.saxutils.escape`: replaces the three XML-special
characters in element text. -/
def escapeChar (c : Char) : List Char :=
  if c = '&' then "&amp;".data
  else if c = '<' then "&lt;".data
  else if c = '>' then "&gt;".data
  else [c]

def escapeXml (s : String) : String := String.mk (s.data.flatMap escapeChar)

/-! ## Date normalizer (`_validate_date`, mcp_server.py lines 1822-1852)

The regex alternatives of the source are mutually exclusive on their literal
separator positions, so the single pattern match below tries them in the
same order and with the same digit requirements (`Char.isDigit` models the
regex class `\d`).
-/

def validateDateL : List Char → List Char
  | [y1, y2, y3, y4, '-', m1, m2] =>
    if y1.isDigit && y2.isDigit && y3.isDigit && y4.isDigit && m1.isDigit && m2.isDigit
    then [y1, y2, y3, y4, '-', m1, m2] else []
  | [y1, y2, y3, y4, '-', m1, m2, '-', d1, d2] =>
    if y1.isDigit && y2.isDigit && y3.isDigit && y4.isDigit && m1.isDigit && m2.isDigit
        && d1.isDigit && d2.isDigit
    then [y1, y2, y3, y4, '-', m1, m2] else []
  | [y1, y2, y3, y4, '/', m1, m2] =>
    if y1.isDigit && y2.isDigit && y3.isDigit && y4.isDigit && m1.isDigit && m2.isDigit
    then [y1, y2, y3, y4, '-', m1, m2] else []
  | [m1, m2, '/', y1, y2, y3, y4] =>
    if y1.isDigit && y2.isDigit && y3.isDigit && y4.isDigit && m1.isDigit && m2.isDigit
    then [y1, y2, y3, y4, '-', m1, m2] else []
  | [y1, y2, y3, y4] =>
    if y1.isDigit && y2.isDigit && y3.isDigit && y4.isDigit
    then [y1, y2, y3, y4, '-', '0', '1'] else []
  | _ => []

def validateDate (s : String) : String :=
  if s = "" then "" else String.mk (validateDateL (pyStripL s.data))

/-- The canonical `YYYY-MM` output shape of the date normalizer. -/
def isYearMonthL : List Char → Bool
  | [y1, y2, y3, y4, sep, m1, m2] =>
    y1.isDigit && y2.isDigit && y3.isDigit && y4.isDigit && sep == '-'
      && m1.isDigit && m2.isDigit
  | _ => false

def isYearMonth (s : String) : Bool := isYearMonthL s.data

/-! ## Code tables (`_country_to_code`, `_phone_country_to_iso`,
`_language_to_iso639b`, `_level_to_cef`, mcp_server.py lines 1594-1785) -/

def countryMapping : List (String × String) :=
  [("france", "fr"), ("united states", "us"), ("united states of america", "us"),
   ("usa", "us"), ("united kingdom", "gb"), ("uk", "gb"), ("great britain", "gb"),
   ("germany", "de"), ("deutschland", "de"), ("spain", "es"), ("españa", "es"),
   ("italy", "it"), ("italia", "it"), ("belgium", "be"), ("belgique", "be"),
   ("netherlands", "nl"), ("pays-bas", "nl"), ("switzerland", "ch"), ("suisse", "ch"),
   ("portugal", "pt"), ("austria", "at"), ("poland", "pl"), ("ireland", "ie"),
   ("sweden", "se"), ("norway", "no"), ("denmark", "dk"), ("finland", "fi"),
   ("greece", "gr"), ("czech republic", "cz"), ("czechia", "cz"), ("hungary", "hu"),
   ("romania", "ro"), ("bulgaria", "bg"), ("croatia", "hr"), ("slovakia", "sk"),
   ("slovenia", "si"), ("luxembourg", "lu"), ("canada", "ca"), ("australia", "au"),
   ("japan", "jp"), ("china", "cn"), ("india", "in"), ("brazil", "br"), ("mexico", "mx")]

def countryToCode (country : String) : String :=
  if country = "" then ""
  else
    let countryLower := pyStrip (pyLower country)
    if countryLower.data.length == 2 then countryLower
    else (countryMapping.lookup countryLower).getD ""

def phoneMapping : List (String × String) :=
  [("1", "us"), ("33", "fr"), ("44", "gb"), ("49", "de"), ("34", "es"), ("39", "it"),
   ("32", "be"), ("31", "nl"), ("41", "ch"), ("351", "pt"), ("43", "at"), ("48", "pl"),
   ("353", "ie"), ("46", "se"), ("47", "no"), ("45", "dk"), ("358", "fi"), ("30", "gr"),
   ("420", "cz"), ("36", "hu"), ("40", "ro"), ("359", "bg"), ("385", "hr"), ("421", "sk"),
   ("386", "si"), ("352", "lu"), ("61", "au"), ("81", "jp"), ("86", "cn"), ("91", "in"),
   ("55", "br"), ("52", "mx")]

def phoneCountryToIso (countryDialing : String) : String :=
  (phoneMapping.lookup countryDialing).getD ""

def langMapping : List (String × String) :=
  [("french", "fre"), ("français", "fre"), ("francais", "fre"), ("fre", "fre"),
   ("fra", "fre"), ("fr", "fre"),
   ("english", "eng"), ("anglais", "eng"), ("eng", "eng"), ("en", "eng"),
   ("german", "ger"), ("deutsch", "ger"), ("allemand", "ger"), ("ger", "ger"),
   ("deu", "ger"), ("de", "ger"),
   ("spanish", "spa"), ("español", "spa"), ("espagnol", "spa"), ("spa", "spa"),
   ("es", "spa"),
   ("italian", "ita"), ("italiano", "ita"), ("italien", "ita"), ("ita", "ita"),
   ("it", "ita"),
   ("portuguese", "por"), ("português", "por"), ("portugais", "por"), ("por", "por"),
   ("pt", "por"),
   ("dutch", "dut"), ("nederlands", "dut"), ("néerlandais", "dut"), ("dut", "dut"),
   ("nld", "dut"), ("nl", "dut"),
   ("chinese", "chi"), ("中文", "chi"), ("chinois", "chi"), ("chi", "chi"),
   ("zho", "chi"), ("zh", "chi"),
   ("japanese", "jpn"), ("日本語", "jpn"), ("japonais", "jpn"), ("jpn", "jpn"),
   ("ja", "jpn"),
   ("russian", "rus"), ("русский", "rus"), ("russe", "rus"), ("rus", "rus"),
   ("ru", "rus"),
   ("arabic", "ara"), ("العربية", "ara"), ("arabe", "ara"), ("ara", "ara"),
   ("ar", "ara")]

def languageToIso639b (langName : String) : String :=
  let langLower := pyStrip (pyLower langName)
  (langMapping.lookup langLower).getD
    (if langLower = "" then "" else String.mk (langLower.data.take 3))

def levelToCef (level : String) : String :=
  let levelLower := pyLower level
  if containsStr "native" levelLower || containsStr "full professional" levelLower then "C2"
  else if containsStr "professional" levelLower then "C1"
  else if containsStr "limited" levelLower || containsStr "intermediate" levelLower then "B2"
  else if containsStr "elementary" levelLower || containsStr "basic" levelLower then "A2"
  else "B1"

/-! ## Base64 (model of Python `base64.b64encode` / `b64decode(validate=True)`)

Bytes are `Nat`s below 256; the encoder and decoder work on byte lists, with
61 the ASCII code of the padding character. -/

def b64chars (v : Nat) : Nat :=
  if v < 26 then 65 + v
  else if v < 52 then 97 + (v - 26)
  else if v < 62 then 48 + (v - 52)
  else if v = 62 then 43
  else 47

def b64charDecode (c : Nat) : Option Nat :=
  if 65 ≤ c ∧ c ≤ 90 then some (c - 65)
  else if 97 ≤ c ∧ c ≤ 122 then some (c - 97 + 26)
  else if 48 ≤ c ∧ c ≤ 57 then some (c - 48 + 52)
  else if c = 43 then some 62
  else if c = 47 then some 63
  else none

def b64encode : List Nat → List Nat
  | [] => []
  | [a] => [b64chars (a / 4), b64chars ((a % 4) * 16), 61, 61]
  | [a, b] => [b64chars (a / 4), b64chars ((a % 4) * 16 + b / 16), b64chars ((b % 16) * 4), 61]
  | a :: b :: c :: rest =>
    b64chars (a / 4) :: b64chars ((a % 4) * 16 + b / 16) ::
      b64chars ((b % 16) * 4 + c / 64) :: b64chars (c % 64) :: b64encode rest

def b64decode : List Nat → Option (List Nat)
  | [] => some []
  | c1 :: c2 :: c3 :: c4 :: rest =>
    match b64charDecode c1, b64charDecode c2 with
    | some v1, some v2 =>
      if c3 = 61 then
        if c4 = 61 ∧ rest = [] then some [v1 * 4 + v2 / 16] else none
      else
        match b64charDecode c3 with
        | some v3 =>
          if c4 = 61 then
            if rest = [] then some [v1 * 4 + v2 / 16, (v2 % 16) * 16 + v3 / 4] else none
          else
            match b64charDecode c4 with
            | some v4 =>
              (b64decode rest).map
                (fun tl => (v1 * 4 + v2 / 16) :: ((v2 % 16) * 16 + v3 / 4) ::
                  ((v3 % 4) * 64 + v4) :: tl)
            | none => none
        | none => none
    | _, _ => none
  | _ => none

/-- UTF-8 encoding of one character (code point), as in Python
`str.encode("utf-8")`. -/
def charUtf8 (c : Char) : List Nat :=
  let n := c.toNat
  if n < 128 then [n]
  else if n < 2048 then [192 + n / 64, 128 + n % 64]
  else if n < 65536 then [224 + n / 4096, 128 + n / 64 % 64, 128 + n % 64]
  else [240 + n / 262144, 128 + n / 4096 % 64, 128 + n / 64 % 64, 128 + n % 64]

def utf8Bytes (cs : List Char) : List Nat := cs.flatMap charUtf8

def strOfBytes (bs : List Nat) : String := String.mk (bs.map Char.ofNat)

/-- ASCII bytes of the data-URI head prepended to a JPEG photo by the
exporter (mcp_server.py line 1123). -/
def dataUriJpegBytes : List Nat := utf8Bytes "data:image/jpeg;base64,".data

/-- Photo transform of `_mac_to_europass_xml` (lines 1111-1126): a raw
base64 JPEG/PNG payload is wrapped in a data URI which is then base64
encoded again; anything else is passed through. -/
def exportPicStr (s : String) : String :=
  if startsWithStr "/9j/" s then
    strOfBytes (b64encode (utf8Bytes ("data:image/jpeg;base64,".data ++ s.data)))
  else if startsWithStr "iVBOR" s then
    strOfBytes (b64encode (utf8Bytes ("data:image/png;base64,".data ++ s.data)))
  else s

/-! ## In-memory resume store (mcp_server.py lines 71-78, 830-836, 946-954)

The store is the insertion-ordered key list of the `_resumes` dict (fresh
`uuid4` keys, so an insertion always appends). `storeCreateInsert` models
`create_resume`, which evicts the oldest key when at capacity;
`storeImportInsert` models the insertion performed by `import_cv`, whose
LRU-cleanup block (lines 830-836) sits after both `return` statements and
is therefore never executed. -/

def maxResumes : Nat := 50

def storeCreateInsert (store : List String) (rid : String) : List String :=
  if maxResumes ≤ store.length then store.drop 1 ++ [rid] else store ++ [rid]

def storeImportInsert (store : List String) (rid : String) : List String :=
  store ++ [rid]

def storeDelete (store : List String) (rid : String) : List String :=
  store.filter (fun k => k ≠ rid)

/-! ## HTML transform, string phase
(`_convert_lists_to_quill_format`, html_transform.py lines 156-211)

The regex `<li([^>]*)>` decomposes the serialized markup into plain text
runs and `<li ...>` open tags; `QChunk` is that decomposition, and the
transform maps over it exactly as `re.sub` does (one output tag per input
tag). -/

inductive QChunk where
  | text (s : String)
  | li (attrs : String)
deriving DecidableEq

def isLiChunk : QChunk → Bool
  | .text _ => false
  | .li _ => true

/-- Model of the regex search `class="([^"]*)"` over an attribute string:
the first `class="` occurrence's quoted value. -/
def extractClassVal : List Char → List Char
  | [] => []
  | c :: rest =>
    if "class=\"".data.isPrefixOf (c :: rest) then
      ((c :: rest).drop 7).takeWhile (fun x => x ≠ '"')
    else extractClassVal rest

def digitsToNat (ds : List Char) : Nat :=
  ds.foldl (fun n c => n * 10 + (c.toNat - 48)) 0

/-- Model of the regex search `ql-indent-(\d+)`: the digits following the
first occurrence of `ql-indent-` that is followed by at least one digit. -/
def scanIndent : List Char → Option Nat
  | [] => none
  | c :: rest =>
    if "ql-indent-".data.isPrefixOf (c :: rest) then
      let ds := ((c :: rest).drop 10).takeWhile Char.isDigit
      if ds.isEmpty then scanIndent rest else some (digitsToNat ds)
    else scanIndent rest

/-- `process_li` (html_transform.py lines 170-194): the capped indent level
computed for one `<li>` tag (0 means no `ql-indent` class on the output). -/
def processLiIndent (attrs : String) (maxIndent : Nat) : Nat :=
  let existingClasses := extractClassVal attrs.data
  let isHeadingChild := containsSeq "heading-child".data existingClasses
  let indent0 := (scanIndent existingClasses).getD 0
  let indent1 := if isHeadingChild && indent0 == 0 then 1 else indent0
  min indent1 maxIndent

/-- The attribute string of an emitted `<li>` tag (line 192-194). -/
def liOutAttrs (indent : Nat) : String :=
  " data-list=\"bullet\"" ++
    (if indent > 0 then " class=\"ql-indent-" ++ toString indent ++ "\"" else "")

/-- The `<ul>`/`</ul>` to `<ol>`/`</ol>` textual replacement (line 168). -/
def replaceUlOl (s : String) : String :=
  ((s.replace "<ul>" "<ol>").replace "</ul>" "</ol>")

def convertListsToQuill (chunks : List QChunk) (maxIndent : Nat) : List QChunk :=
  chunks.map fun ch =>
    match ch with
    | .text s => .text (replaceUlOl s)
    | .li attrs => .li (liOutAttrs (processLiIndent attrs maxIndent))

/-! ## Structural validator (europass_validator.py)

A parsed XML element is its namespace URI, local name, text content
(empty string for none) and children; `iterNodes` is `root.iter()`
(preorder). `rawTagOf` stands for ElementTree's Clark notation
`{uri}local` used by the substring tests of `_check_namespaces` (the
surrounding braces never occur in the tested patterns). Each `check*`
function returns its `(errors, warnings)` contribution in iteration order,
and `validateModel` concatenates them in the order `validate` runs the
checks, with validity meaning an empty error list. -/

inductive XmlNode where
  | node (nsUri : String) (localName : String) (textContent : String)
      (children : List XmlNode)

def XmlNode.nsUri : XmlNode → String
  | .node u _ _ _ => u

def XmlNode.localName : XmlNode → String
  | .node _ l _ _ => l

def XmlNode.textContent : XmlNode → String
  | .node _ _ t _ => t

def XmlNode.children : XmlNode → List XmlNode
  | .node _ _ _ cs => cs

def rawTagOf (n : XmlNode) : String := n.nsUri ++ n.localName

mutual
def iterNodes : XmlNode → List XmlNode
  | .node u l t cs => XmlNode.node u l t cs :: iterNodesList cs
def iterNodesList : List XmlNode → List XmlNode
  | [] => []
  | x :: xs => iterNodes x ++ iterNodesList xs
end

structure ValidationResult where
  is_valid : Bool
  errors : List String
  warnings : List String
deriving DecidableEq

/-- `_check_namespaces` (lines 136-151). -/
def checkNamespaces (root : XmlNode) : List String × List String :=
  let errs :=
    if containsStr "http://www.europass.eu/1.0" (rawTagOf root) then []
    else if containsStr "europass" (pyLower (rawTagOf root)) then []
    else ["Root element must be in Europass namespace (http://www.europass.eu/1.0)"]
  let warns := if root.nsUri = "" then ["Root element should use namespace"] else []
  (errs, warns)

/-- `_check_root_element` (lines 153-159). -/
def checkRootElement (root : XmlNode) : List String × List String :=
  if root.localName ≠ "Candidate" then
    (["Root element must be Candidate, found " ++ root.localName], [])
  else ([], [])

/-- `_check_candidate_structure` (lines 161-182). -/
def checkCandidateStructure (root : XmlNode) : List String × List String :=
  let childTags := root.children.map XmlNode.localName
  let errs :=
    (if childTags.any (fun t => containsStr "DocumentID" t) then []
     else ["Missing required element: hr:DocumentID"]) ++
    (if childTags.contains "CandidateSupplier" then []
     else ["Missing required element: CandidateSupplier"]) ++
    (if childTags.contains "CandidatePerson" then []
     else ["Missing required element: CandidatePerson"]) ++
    (if childTags.contains "CandidateProfile" then []
     else ["Missing required element: CandidateProfile"])
  (errs, [])

/-- `_check_person_elements` (lines 184-207): warnings only. -/
def checkPersonElements (root : XmlNode) : List String × List String :=
  match root.children.find? (fun c => c.localName = "CandidatePerson") with
  | none => ([], [])
  | some person =>
    ([], person.children.flatMap fun e =>
      (if e.localName = "PersonTitle" then
        ["hr:PersonTitle element may not be supported by all Europass editors"]
       else []) ++
      (if e.localName = "PersonDescription" then
        ["hr:PersonDescription element may not be supported by all Europass editors"]
       else []))

/-- `_check_content_encoding` (lines 209-214): warnings only. -/
def checkContentEncoding (rawXml : String) : List String × List String :=
  if ¬ startsWithStr "<?xml" (pyStrip rawXml) then
    ([], ["Missing XML declaration"])
  else if ¬ (containsStr "encoding=\"UTF-8\"" (String.mk (rawXml.data.take 100)) ||
      containsStr "encoding=\x27UTF-8\x27" (String.mk (rawXml.data.take 100))) then
    ([], ["XML should declare UTF-8 encoding"])
  else ([], [])

/-- `_check_base64_data` (lines 216-237). -/
def checkBase64Data (root : XmlNode) : List String × List String :=
  ((iterNodes root).flatMap fun e =>
    if e.localName = "EmbeddedData" ∧ e.textContent ≠ "" then
      let dataClean := (pyStrip e.textContent).data.filter (fun c => ¬ c.isWhitespace)
      if (b64decode (dataClean.map Char.toNat)).isNone then
        ["Invalid base64 in EmbeddedData"]
      else []
    else [],
   (iterNodes root).flatMap fun e =>
    if e.localName = "EmbeddedData" ∧ e.textContent ≠ "" then
      let dataClean := (pyStrip e.textContent).data.filter (fun c => ¬ c.isWhitespace)
      if 10 * 1024 * 1024 < dataClean.length then ["Large base64 data may cause issues"]
      else []
    else [])

/-- `_check_invalid_characters` (lines 253-266). -/
def checkInvalidCharacters (rawXml : String) : List String × List String :=
  let isBadControl := fun (c : Char) =>
    c.toNat ≤ 8 ∨ c.toNat = 11 ∨ c.toNat = 12 ∨ (14 ≤ c.toNat ∧ c.toNat ≤ 31)
  ((if rawXml.data.any (fun c => isBadControl c) then
      ["XML contains invalid control characters"]
    else []) ++
   (if rawXml.data.contains (Char.ofNat 0) then ["XML contains null bytes"] else []),
   [])

/-- `_check_country_codes` (lines 268-281): a `CountryCode` element whose
stripped text is not all-lowercase is an error; a wrong length is only a
warning. -/
def checkCountryCodes (root : XmlNode) : List String × List String :=
  ((iterNodes root).flatMap fun e =>
    if e.localName = "CountryCode" ∧ e.textContent ≠ "" then
      let code := pyStrip e.textContent
      if code ≠ pyLower code then ["CountryCode " ++ code ++ " must be lowercase"]
      else []
    else [],
   (iterNodes root).flatMap fun e =>
    if e.localName = "CountryCode" ∧ e.textContent ≠ "" then
      let code := pyStrip e.textContent
      if code.data.length ≠ 2 then
        ["CountryCode " ++ code ++ " should be 2-letter ISO code"]
      else []
    else [])

/-- `_check_language_codes` (lines 283-295): warnings only. -/
def checkLanguageCodes (root : XmlNode) : List String × List String :=
  ([],
   (iterNodes root).flatMap fun e =>
    if (e.localName = "PrimaryLanguageCode" ∨ e.localName = "CompetencyID")
        ∧ e.textContent ≠ "" then
      let code := pyStrip e.textContent
      if ¬ (2 ≤ code.data.length ∧ code.data.length ≤ 3) then
        ["Language code " ++ code ++ " should be 2-3 letter ISO code"]
      else []
    else [])

/-- `EuropassValidator.validate` (lines 92-125) after a successful parse:
all checks run in order, and the result is valid iff no check recorded an
error. -/
def validateModel (root : XmlNode) (rawXml : String) : ValidationResult :=
  let r1 := checkNamespaces root
  let r2 := checkRootElement root
  let r3 := checkCandidateStructure root
  let r4 := checkPersonElements root
  let r5 := checkContentEncoding rawXml
  let r6 := checkBase64Data root
  let r7 := checkInvalidCharacters rawXml
  let r8 := checkCountryCodes root
  let r9 := checkLanguageCodes root
  let errs := r1.1 ++ r2.1 ++ r3.1 ++ r4.1 ++ r5.1 ++ r6.1 ++ r7.1 ++ r8.1 ++ r9.1
  let warns := r1.2 ++ r2.2 ++ r3.2 ++ r4.2 ++ r5.2 ++ r6.2 ++ r7.2 ++ r8.2 ++ r9.2
  { is_valid := errs.isEmpty, errors := errs, warnings := warns }

/-! ## Canonical record model (MAC JSON, as produced/consumed by
`_europass_xml_to_mac` and `_mac_to_europass_xml`)

Optional JSON fields are `Option`s when their presence is tested with
`in`/`get` distinctions that matter, and empty strings/lists when Python
truthiness is the only test applied (matching the source's uniform
`if value:` checks). `cefrScores` is an insertion-ordered association
list, the model of a Python dict. -/

structure MacRole where
  name : String
  startDate : String
  finishDate : Option String
  fullDescription : String
  notes : String
  challenges : List String
deriving DecidableEq

structure MacJob where
  orgName : String
  orgCountry : String
  orgCity : String
  roles : List MacRole
deriving DecidableEq

structure MacStudy where
  studyType : String
  degreeAchieved : Bool
  name : String
  startDate : String
  finishDate : Option String
  description : Option String
  instName : String
  instURL : Option String
  instCountry : String
  instCity : String
deriving DecidableEq

structure MacLanguage where
  name : String
  fullName : String
  level : String
  cefrScores : Option (List (String × String))
deriving DecidableEq

structure MacPhone where
  countryCode : String
  number : String
deriving DecidableEq

structure MacRecord where
  settingsLanguage : String
  name : String
  surnames : String
  birthday : String
  locCountry : String
  locRegion : String
  locMunicipality : String
  locPostalCode : String
  locAddress : String
  relevantLinks : List String
  emails : List String
  phones : List MacPhone
  jobs : List MacJob
  studies : List MacStudy
  languages : List MacLanguage
  profilePicture : String
deriving DecidableEq

/-! ## Europass document model (the element structure read by
`_europass_xml_to_mac` and produced by `_mac_to_europass_xml`)

Fields named `...Text` hold the raw element text (the importer applies its
own `.strip()`/truthiness tests to them); all other string fields hold the
already-stripped text that the importer's `get_text` helper returns
(`get_text` strips every text it reads, and yields `""` for a missing or
whitespace-only element). An empty string stands for an absent element. -/

structure EPosition where
  title : String
  startText : String
  endText : String
  currentText : String
  description : String
deriving DecidableEq

structure EEmployer where
  orgName : String
  orgCity : String
  orgCountry : String
  positions : List EPosition
deriving DecidableEq

structure EEducation where
  instName : String
  instCity : String
  instCountry : String
  instURL : String
  startText : String
  endText : String
  ongoingText : String
  degreeName : String
  skillsCovered : String
deriving DecidableEq

structure ECompetency where
  taxonomyID : String
  idText : String
  dims : List (String × String)
deriving DecidableEq

structure EAttachment where
  fileType : String
  instructions : String
  embeddedData : String
deriving DecidableEq

/-- The parts of a parsed Europass XML document that
`_europass_xml_to_mac` reads. `email`, `phoneCountry`, `phoneNumber`,
`addressLine`, `city`, `postalCode` and `countryCode` are the values left
by the `Communication` channel scan of lines 209-231 (last matching
channel wins, exactly the loop's overwrite semantics). -/
structure EDoc where
  givenName : String
  familyName : String
  birthday : String
  nationality : String
  email : String
  phoneCountry : String
  phoneNumber : String
  addressLine : String
  city : String
  postalCode : String
  countryCode : String
  employers : List EEmployer
  educations : List EEducation
  motherLanguages : List String
  foreignLanguages : List String
  competencies : List ECompetency
  attachments : List EAttachment
deriving DecidableEq

/-! ## Importer (`_europass_xml_to_mac`, mcp_server.py lines 158-533) -/

/-- Role extraction (lines 270-317). -/
def importRole (p : EPosition) : MacRole :=
  let startDate := pyStrip p.startText
  let endDate := pyStrip p.endText
  let isCurrent := p.currentText ≠ "" && pyLower p.currentText == "true"
  { name := p.title
    startDate := startDate
    finishDate := if endDate ≠ "" && !isCurrent then some endDate else none
    fullDescription := ""
    notes := p.description
    challenges := if p.description ≠ "" then [p.description] else [] }

/-- `upper() if len == 2 else` country normalization applied to imported
location country codes (lines 236, 264, 407). -/
def importCountry (code : String) : String :=
  if code.data.length == 2 then pyUpper code else code

/-- Employer extraction (lines 249-329). -/
def importJob (e : EEmployer) : MacJob :=
  { orgName := e.orgName
    orgCountry := importCountry e.orgCountry
    orgCity := e.orgCity
    roles := e.positions.map importRole }

/-- The certification heuristic (lines 383-387). -/
def studyCertCond (degreeName startDate endDate : String) : Bool :=
  containsStr "certif" (pyLower degreeName) ||
    containsStr "safe" (pyLower degreeName) ||
    (startDate == endDate && startDate ≠ "")

/-- Study extraction (lines 336-413). -/
def importStudy (ed : EEducation) : MacStudy :=
  let startDate := pyStrip ed.startText
  let endDate := pyStrip ed.endText
  let ongoing := ed.ongoingText ≠ "" && pyLower ed.ongoingText == "true"
  { studyType :=
      if studyCertCond ed.degreeName startDate endDate then "certification"
      else "officialDegree"
    degreeAchieved := !ongoing && endDate ≠ ""
    name := ed.degreeName
    startDate := startDate
    finishDate := if endDate ≠ "" then some endDate else none
    description := if ed.skillsCovered ≠ "" then some ed.skillsCovered else none
    instName := ed.instName
    instURL := if ed.instURL ≠ "" then some ed.instURL else none
    instCountry := importCountry ed.instCountry
    instCity := ed.instCity }

/-- Python dict assignment `m[k] = v`: update in place, else append. -/
def dictInsert (m : List (String × String)) (k v : String) : List (String × String) :=
  match m with
  | [] => [(k, v)]
  | (k0, v0) :: rest =>
    if k0 == k then (k0, v) :: rest else (k0, v0) :: dictInsert rest k v

def dictKeys (m : List (String × String)) : List String := m.map Prod.fst

/-- Score dict built from the `CompetencyDimension` children of one
competency (lines 452-457). -/
def compScores (dims : List (String × String)) : List (String × String) :=
  dims.foldl
    (fun m dv => if dv.1 ≠ "" && dv.2 ≠ "" then dictInsert m dv.1 dv.2 else m) []

/-- The for-else over `languages` (lines 462-474): attach the scores to the
first language whose name matches the code case-insensitively, else append
a new language entry. -/
def attachCefr (code : String) (scores : List (String × String)) :
    List MacLanguage → List MacLanguage
  | [] => [{ name := code, fullName := code,
             level := "Professional working proficiency", cefrScores := some scores }]
  | l :: rest =>
    if pyLower l.name == pyLower code then { l with cefrScores := some scores } :: rest
    else l :: attachCefr code scores rest

/-- One `PersonCompetency` step (lines 443-474). -/
def applyCompetency (langs : List MacLanguage) (c : ECompetency) : List MacLanguage :=
  if c.taxonomyID == "language" then
    if c.idText ≠ "" then
      let code := pyStrip c.idText
      let scores := compScores c.dims
      if scores ≠ [] then attachCefr code scores langs else langs
    else langs
  else langs

/-- Language extraction: the basic mother/foreign list (lines 415-434)
followed by the CEFR pass (lines 436-474). -/
def importLanguages (d : EDoc) : List MacLanguage :=
  let mother := (d.motherLanguages.filter (fun c => c ≠ "")).map fun code =>
    { name := code, fullName := code,
      level := "Native or bilingual proficiency", cefrScores := none }
  let foreign := (d.foreignLanguages.filter (fun c => c ≠ "")).map fun code =>
    { name := code, fullName := code,
      level := "Professional working proficiency", cefrScores := none }
  d.competencies.foldl applyCompetency (mother ++ foreign)

/-- Profile-picture extraction (lines 476-486): the first attachment that
is marked as a photo and has non-empty embedded data. -/
def importPicture (d : EDoc) : String :=
  match d.attachments.find?
      (fun a => (a.fileType == "photo" || a.instructions == "ProfilePicture")
        && a.embeddedData ≠ "") with
  | some a => a.embeddedData
  | none => ""

/-- `_europass_xml_to_mac` assembled (lines 488-533). -/
def importMac (d : EDoc) : MacRecord :=
  { settingsLanguage := "fr"
    name := d.givenName
    surnames := d.familyName
    birthday := d.birthday
    locCountry := importCountry d.countryCode
    locRegion := ""
    locMunicipality := d.city
    locPostalCode := d.postalCode
    locAddress := d.addressLine
    relevantLinks := []
    emails := if d.email ≠ "" then [d.email] else []
    phones :=
      if d.phoneNumber ≠ "" then [{ countryCode := d.phoneCountry, number := d.phoneNumber }]
      else []
    jobs := d.employers.map importJob
    studies := d.educations.map importStudy
    languages := importLanguages d
    profilePicture := importPicture d }

/-! ## Exporter helpers (`_build_html_description`, mcp_server.py
lines 1788-1819) -/

mutual
/-- The regex `re.sub(r'<[^>]+>', '', ...)` tag stripper: text mode. -/
def stripTags : List Char → List Char
  | [] => []
  | '<' :: rest => stripTagsIn rest
  | c :: rest => c :: stripTags rest
/-- The regex tag stripper: inside a tag, skip to the closing bracket. -/
def stripTagsIn : List Char → List Char
  | [] => []
  | '>' :: rest => stripTags rest
  | _ :: rest => stripTagsIn rest
end

def buildHtmlDescription (challenges : List String) : String :=
  match challenges with
  | [] => ""
  | _ =>
    let passThrough :=
      match challenges with
      | [desc] =>
        desc ≠ "" && (containsStr "<p>" desc || containsStr "<ol>" desc ||
          containsStr "<ul>" desc || containsStr "<li" desc)
      | _ => false
    if h : passThrough then challenges.head (by
        cases challenges with
        | nil => simp [passThrough] at h
        | cons a tl => exact List.cons_ne_nil a tl)
    else
      let items := challenges.filterMap fun desc =>
        if desc ≠ "" then
          let cleanDesc := pyStrip (String.mk (stripTags desc.data))
          if cleanDesc ≠ "" then some ("<li>" ++ cleanDesc ++ "</li>") else none
        else none
      if items ≠ [] then "<ul>" ++ String.join items ++ "</ul>" else ""

/-- Role description selection (lines 1329-1334): `fullDescription`, then
`notes`, then the challenge list rendered to HTML. -/
def resolveDescription (role : MacRole) : String :=
  if role.fullDescription ≠ "" then role.fullDescription
  else if role.notes ≠ "" then role.notes
  else buildHtmlDescription role.challenges

/-- The five CEFR dimension codes emitted per language (lines 1512-1513). -/
def cefDims : List String :=
  ["CEF-Understanding-Listening", "CEF-Understanding-Reading",
   "CEF-Speaking-Interaction", "CEF-Speaking-Production", "CEF-Writing-Production"]

/-! ## Structured view of the exported XML

`exportEDoc` is the element structure of the document emitted by
`_mac_to_europass_xml` (lines 1099-1591), expressed directly in the `EDoc`
model that the importer reads: one `EmployerHistory` per (job, role) pair,
one `EducationOrganizationAttendance` per study with an always-present
`EndDate` falling back to the start date, no `LanguageSkills` section, one
language `PersonCompetency` per language with all five CEFR dimensions,
and the photo attachment only when the (re-encoded) picture payload is
non-empty. XML escaping applied on export is inverted by the importer's
entity unescaping, so text fields appear unescaped here. -/

def exportEmployer (job : MacJob) (role : MacRole) : EEmployer :=
  let finishD := validateDate (role.finishDate.getD "")
  { orgName := job.orgName
    orgCity := job.orgCity
    orgCountry := countryToCode job.orgCountry
    positions :=
      [{ title := role.name
         startText := validateDate role.startDate
         endText := finishD
         currentText := if finishD = "" then "true" else "false"
         description := resolveDescription role }] }

def exportEducation (st : MacStudy) : EEducation :=
  let startD := validateDate st.startDate
  let finishD := validateDate (st.finishDate.getD "")
  { instName := st.instName
    instCity := st.instCity
    instCountry := countryToCode st.instCountry
    instURL := st.instURL.getD ""
    startText := startD
    endText := if finishD ≠ "" then finishD else startD
    ongoingText := if finishD = "" then "true" else "false"
    degreeName := st.name
    skillsCovered := st.description.getD "" }

def exportCompetency (l : MacLanguage) : ECompetency :=
  { taxonomyID := "language"
    idText := languageToIso639b (pyLower l.name)
    dims := cefDims.map fun d =>
      (d, (List.lookup d (l.cefrScores.getD [])).getD (levelToCef l.level)) }

def exportEDoc (mac : MacRecord) : EDoc :=
  let pic := exportPicStr mac.profilePicture
  { givenName := mac.name
    familyName := mac.surnames
    birthday := mac.birthday
    nationality := countryToCode mac.locCountry
    email := mac.emails.headD ""
    phoneCountry := (mac.phones.headD { countryCode := "", number := "" }).countryCode
    phoneNumber := (mac.phones.headD { countryCode := "", number := "" }).number
    addressLine := if mac.locAddress ≠ "" then mac.locAddress else mac.locRegion
    city := mac.locMunicipality
    postalCode := mac.locPostalCode
    countryCode := countryToCode mac.locCountry
    employers := mac.jobs.flatMap fun job => job.roles.map (exportEmployer job)
    educations := mac.studies.map exportEducation
    motherLanguages := []
    foreignLanguages := []
    competencies := mac.languages.map exportCompetency
    attachments :=
      if pic ≠ "" then
        [{ fileType := "photo", instructions := "ProfilePicture", embeddedData := pic }]
      else [] }

/-! ## XML exporter, line level (`_mac_to_europass_xml`, lines 1099-1591)

The source builds the document as a list of text lines joined with
newlines; each helper below reproduces one of its sections, including the
exact indentation of every line. `today` stands for the
`datetime.now().strftime("%Y%m%d")` stamp of the DocumentID line. -/

def lstripPlus (s : String) : String :=
  String.mk (s.data.dropWhile (fun c => c = '+'))

def candidateHeaderLines (today : String) : List String :=
  ["<?xml version=\"1.0\" encoding=\"utf-8\"?>",
   "<Candidate xmlns=\"http://www.europass.eu/1.0\" xmlns:eures=\"http://www.europass_eures.eu/1.0\" xmlns:hr=\"http://www.hr-xml.org/3\" xmlns:oa=\"http://www.openapplications.org/oagis/9\" xmlns:xsi=\"http://www.w3.org/2001/XMLSchema-instance\" xsi:schemaLocation=\"http://www.europass.eu/1.0 Candidate.xsd\">",
   "    <hr:DocumentID schemeID=\"MAC-" ++ today ++ "\" schemeName=\"DocumentIdentifier\" schemeAgencyName=\"EUROPASS\" schemeVersionID=\"4.0\" />"]

def supplierLines (mac : MacRecord) : List String :=
  let email := mac.emails.headD ""
  ["    <CandidateSupplier>",
   "        <hr:PartyID schemeID=\"MAC-001\" schemeName=\"PartyID\" schemeAgencyName=\"EUROPASS\" schemeVersionID=\"1.0\" />",
   "        <hr:PartyName>Owner</hr:PartyName>",
   "        <PersonContact>",
   "            <PersonName>",
   "                <oa:GivenName>" ++ escapeXml mac.name ++ "</oa:GivenName>",
   "                <hr:FamilyName>" ++ escapeXml mac.surnames ++ "</hr:FamilyName>",
   "            </PersonName>"] ++
  (if email ≠ "" then
    ["            <Communication>",
     "                <ChannelCode>Email</ChannelCode>",
     "                <oa:URI>" ++ escapeXml email ++ "</oa:URI>",
     "            </Communication>"]
   else []) ++
  ["        </PersonContact>",
   "        <hr:PrecedenceCode>1</hr:PrecedenceCode>",
   "    </CandidateSupplier>"]

def primaryLangMapping : List (String × String) :=
  [("fr", "fre"), ("fra", "fre"), ("fre", "fre"),
   ("en", "eng"), ("eng", "eng"),
   ("de", "deu"), ("deu", "deu"), ("ger", "deu"),
   ("es", "spa"), ("spa", "spa"),
   ("it", "ita"), ("ita", "ita"),
   ("pt", "por"), ("por", "por"),
   ("nl", "nld"), ("nld", "nld"), ("dut", "nld")]

def primaryLang (mac : MacRecord) : String :=
  let langCode := pyLower mac.settingsLanguage
  match mac.languages with
  | [] => if langCode = "en" then "eng" else if langCode = "fr" then "fre" else langCode
  | l0 :: _ =>
    let firstLang := String.mk ((pyLower l0.name).data.take 3)
    (primaryLangMapping.lookup firstLang).getD firstLang

/-- `if location:`: the location dict is non-empty. -/
def locationPresent (mac : MacRecord) : Bool :=
  mac.locCountry ≠ "" || mac.locRegion ≠ "" || mac.locMunicipality ≠ "" ||
    mac.locPostalCode ≠ "" || mac.locAddress ≠ ""

def personLines (mac : MacRecord) : List String :=
  let email := mac.emails.headD ""
  ["    <CandidatePerson>",
   "        <PersonName>",
   "            <oa:GivenName>" ++ escapeXml mac.name ++ "</oa:GivenName>",
   "            <hr:FamilyName>" ++ escapeXml mac.surnames ++ "</hr:FamilyName>",
   "        </PersonName>"] ++
  (if email ≠ "" then
    ["        <Communication>",
     "            <ChannelCode>Email</ChannelCode>",
     "            <oa:URI>" ++ escapeXml email ++ "</oa:URI>",
     "        </Communication>"]
   else []) ++
  (mac.relevantLinks.flatMap fun url =>
    if url ≠ "" then
      ["        <Communication>",
       "            <ChannelCode>Web</ChannelCode>",
       "            <oa:URI>" ++ escapeXml url ++ "</oa:URI>",
       "        </Communication>"]
    else []) ++
  (match mac.phones with
   | [] => []
   | phone :: _ =>
     let phoneCountryDialing := lstripPlus phone.countryCode
     ["        <Communication>",
      "            <ChannelCode>Telephone</ChannelCode>",
      "            <UseCode>work</UseCode>",
      "            <CountryDialing>" ++ escapeXml phoneCountryDialing ++ "</CountryDialing>",
      "            <oa:DialNumber>" ++ escapeXml phone.number ++ "</oa:DialNumber>",
      "            <CountryCode>" ++ phoneCountryToIso phoneCountryDialing ++ "</CountryCode>",
      "        </Communication>"]) ++
  (if locationPresent mac then
    let displayAddress := if mac.locAddress ≠ "" then mac.locAddress else mac.locRegion
    ["        <Communication>",
     "            <UseCode>home</UseCode>",
     "            <Address type=\"home\">",
     "                <oa:AddressLine>" ++ escapeXml displayAddress ++ "</oa:AddressLine>",
     "                <oa:CityName>" ++ escapeXml mac.locMunicipality ++ "</oa:CityName>",
     "                <CountryCode>" ++ countryToCode mac.locCountry ++ "</CountryCode>"] ++
    (if mac.locPostalCode ≠ "" then
      ["                <oa:PostalCode>" ++ escapeXml mac.locPostalCode ++ "</oa:PostalCode>"]
     else []) ++
    ["            </Address>",
     "        </Communication>"]
   else []) ++
  ["        <NationalityCode>" ++ countryToCode mac.locCountry ++ "</NationalityCode>"] ++
  (if mac.birthday ≠ "" then
    ["        <hr:BirthDate>" ++ mac.birthday ++ "</hr:BirthDate>"]
   else []) ++
  ["        <PrimaryLanguageCode name=\"NORMAL\">" ++ primaryLang mac ++ "</PrimaryLanguageCode>",
   "    </CandidatePerson>"]

def profileOpenLines (mac : MacRecord) : List String :=
  ["    <CandidateProfile languageCode=\"" ++ pyLower mac.settingsLanguage ++ "\">",
   "        <hr:ID schemeID=\"MAC-001\" schemeName=\"CandidateProfileID\" schemeAgencyName=\"EUROPASS\" schemeVersionID=\"1.0\" />"]

def euresEndDateOpen : String := "                        <eures:EndDate>"

def euresEndDateClose : String := "                        </eures:EndDate>"

def currentIndicatorLine (current : Bool) : String :=
  "                        <hr:CurrentIndicator>" ++ (if current then "true" else "false")
    ++ "</hr:CurrentIndicator>"

/-- The per-role `EmployerHistory` block (lines 1320-1381): note that the
source emits one whole `EmployerHistory` element per role. -/
def roleLines (orgName orgCity orgCountry : String) (role : MacRole) : List String :=
  let startD := validateDate role.startDate
  let finishD := validateDate (role.finishDate.getD "")
  let isCurrent := finishD = ""
  let description := resolveDescription role
  ["            <EmployerHistory>",
   "                <hr:OrganizationName>" ++ escapeXml orgName ++ "</hr:OrganizationName>",
   "                <OrganizationContact>",
   "                    <Communication>"] ++
  (if orgCity ≠ "" || orgCountry ≠ "" then
    ["                        <Address>"] ++
    (if orgCity ≠ "" then
      ["                            <oa:CityName>" ++ escapeXml orgCity ++ "</oa:CityName>"]
     else []) ++
    (if orgCountry ≠ "" then
      ["                            <CountryCode>" ++ orgCountry ++ "</CountryCode>"]
     else []) ++
    ["                        </Address>"]
   else []) ++
  ["                    </Communication>",
   "                </OrganizationContact>",
   "                <PositionHistory>",
   "                    <PositionTitle typeCode=\"FREETEXT\">" ++ escapeXml role.name ++ "</PositionTitle>",
   "                    <eures:EmploymentPeriod>",
   "                        <eures:StartDate>",
   "                            <hr:FormattedDateTime>" ++ startD ++ "</hr:FormattedDateTime>",
   "                        </eures:StartDate>"] ++
  (if finishD ≠ "" then
    [euresEndDateOpen,
     "                            <hr:FormattedDateTime>" ++ finishD ++ "</hr:FormattedDateTime>",
     euresEndDateClose]
   else []) ++
  [currentIndicatorLine isCurrent,
   "                    </eures:EmploymentPeriod>",
   "                    <oa:Description>" ++ escapeXml description ++ "</oa:Description>"] ++
  (if orgCity ≠ "" then
    ["                    <City>" ++ escapeXml orgCity ++ "</City>"]
   else []) ++
  (if orgCountry ≠ "" then
    ["                    <Country>" ++ orgCountry ++ "</Country>"]
   else []) ++
  ["                </PositionHistory>",
   "            </EmployerHistory>"]

def jobLines (job : MacJob) : List String :=
  job.roles.flatMap (roleLines job.orgName job.orgCity (countryToCode job.orgCountry))

def employmentLines (jobs : List MacJob) : List String :=
  if jobs ≠ [] then
    ["        <EmploymentHistory>"] ++ jobs.flatMap jobLines ++
      ["        </EmploymentHistory>"]
  else []

def eduEndDateOpen : String := "                    <EndDate>"

def eduEndDateClose : String := "                    </EndDate>"

def eduFmtLine (d : String) : String :=
  "                        <hr:FormattedDateTime>" ++ d ++ "</hr:FormattedDateTime>"

def ongoingLine (ongoing : Bool) : String :=
  "                    <Ongoing>" ++ (if ongoing then "true" else "false") ++ "</Ongoing>"

/-- The per-study `EducationOrganizationAttendance` block (lines
1396-1457): the `EndDate` element is always emitted, falling back to the
start date when the finish date is absent or invalid. -/
def studyLines (st : MacStudy) : List String :=
  let startD := validateDate st.startDate
  let finishD := validateDate (st.finishDate.getD "")
  let description := st.description.getD ""
  ["            <EducationOrganizationAttendance>",
   "                <hr:OrganizationName>" ++ escapeXml st.instName ++ "</hr:OrganizationName>",
   "                <OrganizationContact>",
   "                    <Communication>"] ++
  (if st.instCity ≠ "" || countryToCode st.instCountry ≠ "" then
    ["                        <Address>"] ++
    (if st.instCity ≠ "" then
      ["                            <oa:CityName>" ++ escapeXml st.instCity ++ "</oa:CityName>"]
     else []) ++
    (if countryToCode st.instCountry ≠ "" then
      ["                            <CountryCode>" ++ countryToCode st.instCountry ++ "</CountryCode>"]
     else []) ++
    ["                        </Address>"]
   else []) ++
  ["                    </Communication>"] ++
  (match st.instURL with
   | some url =>
     if url ≠ "" then
       ["                    <Communication>",
        "                        <ChannelCode>Web</ChannelCode>",
        "                        <oa:URI>" ++ escapeXml url ++ "</oa:URI>",
        "                    </Communication>"]
     else []
   | none => []) ++
  ["                </OrganizationContact>",
   "                <AttendancePeriod>",
   "                    <StartDate>",
   eduFmtLine startD,
   "                    </StartDate>",
   eduEndDateOpen,
   eduFmtLine (if finishD ≠ "" then finishD else startD),
   eduEndDateClose,
   ongoingLine (finishD = ""),
   "                </AttendancePeriod>",
   "                <EducationDegree>",
   "                    <hr:DegreeName>" ++ escapeXml st.name ++ "</hr:DegreeName>"] ++
  (if description ≠ "" then
    ["                    <OccupationalSkillsCovered>" ++ escapeXml description ++ "</OccupationalSkillsCovered>"]
   else []) ++
  ["                </EducationDegree>",
   "            </EducationOrganizationAttendance>"]

def educationLines (studies : List MacStudy) : List String :=
  if studies ≠ [] then
    ["        <EducationHistory>"] ++ studies.flatMap studyLines ++
      ["        </EducationHistory>"]
  else []

/-- The per-certification block (lines 1468-1489). -/
def certLines (cert : MacStudy) : List String :=
  let date := validateDate (cert.finishDate.getD cert.startDate)
  let description := cert.description.getD ""
  ["            <Certification>",
   "                <hr:CertificationName>" ++ escapeXml cert.name ++ "</hr:CertificationName>",
   "                <hr:IssuingAuthority>" ++ escapeXml cert.instName ++ "</hr:IssuingAuthority>"] ++
  (if description ≠ "" then
    ["                <hr:CertificationDescription>" ++ escapeXml description ++ "</hr:CertificationDescription>"]
   else []) ++
  ["                <hr:CertificationDate>"] ++
  (if date ≠ "" then
    ["                    <hr:FormattedDateTime>" ++ date ++ "</hr:FormattedDateTime>"]
   else []) ++
  ["                </hr:CertificationDate>",
   "            </Certification>"]

def certSection (studies : List MacStudy) : List String :=
  let certifications := studies.filter (fun s => s.studyType == "certification")
  if certifications ≠ [] then
    ["        <Certifications>"] ++ certifications.flatMap certLines ++
      ["        </Certifications>"]
  else []

/-- The per-language `PersonCompetency` block (lines 1497-1525). -/
def langLines (l : MacLanguage) : List String :=
  let code := languageToIso639b (pyLower l.name)
  let defaultLevel := levelToCef l.level
  let scores := l.cefrScores.getD []
  ["            <PersonCompetency>",
   "                <CompetencyID schemeName=\"NORMAL\">" ++ code ++ "</CompetencyID>",
   "                <hr:TaxonomyID>language</hr:TaxonomyID>"] ++
  (cefDims.flatMap fun dim =>
    ["                <eures:CompetencyDimension>",
     "                    <hr:CompetencyDimensionTypeCode>" ++ dim ++ "</hr:CompetencyDimensionTypeCode>",
     "                    <eures:Score>",
     "                        <hr:ScoreText>" ++ (List.lookup dim scores).getD defaultLevel ++ "</hr:ScoreText>",
     "                    </eures:Score>",
     "                </eures:CompetencyDimension>"]) ++
  ["            </PersonCompetency>"]

def langSection (languages : List MacLanguage) : List String :=
  if languages ≠ [] then
    ["        <PersonQualifications>"] ++ languages.flatMap langLines ++
      ["        </PersonQualifications>"]
  else []

def photoLines (pic : String) : List String :=
  if pic ≠ "" then
    ["        <eures:Attachment>",
     "            <oa:EmbeddedData>" ++ pic ++ "</oa:EmbeddedData>",
     "            <oa:FileType>photo</oa:FileType>",
     "            <hr:Instructions>ProfilePicture</hr:Instructions>",
     "        </eures:Attachment>"]
  else []

def placeholderLines : List String :=
  ["        <CreativeWorks />",
   "        <Projects />",
   "        <SocialAndPoliticalActivities />",
   "        <Skills />",
   "        <NetworksAndMemberships />",
   "        <ConferencesAndSeminars />",
   "        <VoluntaryWorks />",
   "        <CourseCertifications />"]

def renderingLines : List String :=
  ["    <RenderingInformation>",
   "        <Design>",
   "            <Template>Template3</Template>",
   "            <Color>Default</Color>",
   "            <FontSize>Medium</FontSize>",
   "            <Logo>FirstPage</Logo>",
   "            <PageNumbers>false</PageNumbers>",
   "            <SectionsOrder>",
   "                <Section>",
   "                    <Title>work-experience</Title>",
   "                </Section>",
   "                <Section>",
   "                    <Title>education-training</Title>",
   "                </Section>",
   "                <Section>",
   "                    <Title>language</Title>",
   "                </Section>",
   "            </SectionsOrder>",
   "        </Design>",
   "    </RenderingInformation>"]

def macToEuropassXmlLines (today : String) (mac : MacRecord) : List String :=
  candidateHeaderLines today ++
  supplierLines mac ++
  personLines mac ++
  profileOpenLines mac ++
  employmentLines mac.jobs ++
  educationLines mac.studies ++
  ["        <eures:Licenses />"] ++
  certSection mac.studies ++
  langSection mac.languages ++
  ["        <EmploymentReferences />"] ++
  photoLines (exportPicStr mac.profilePicture) ++
  placeholderLines ++
  ["    </CandidateProfile>"] ++
  renderingLines ++
  ["</Candidate>"]

def macToEuropassXml (today : String) (mac : MacRecord) : String :=
  String.intercalate "\n" (macToEuropassXmlLines today mac)

/-! ## Concrete documents used by witnesses and counterexamples -/

/-- A document whose single `EmployerHistory` holds two `PositionHistory`
entries (used against claim C1's job-count preservation). -/
def c1CounterDoc : EDoc :=
  { givenName := "Ada", familyName := "Lovelace", birthday := "", nationality := ""
    email := "", phoneCountry := "", phoneNumber := "", addressLine := ""
    city := "", postalCode := "", countryCode := ""
    employers :=
      [{ orgName := "Acme", orgCity := "", orgCountry := ""
         positions :=
           [{ title := "Dev", startText := "2020-01", endText := "2021-01",
              currentText := "", description := "" },
            { title := "Lead", startText := "2021-02", endText := "",
              currentText := "true", description := "" }] }]
    educations := [], motherLanguages := [], foreignLanguages := []
    competencies := [], attachments := [] }

/-- A well-behaved document: one employer with one position, one study, one
mother language carrying all five CEFR dimensions, and a photo. -/
def c1WitnessDoc : EDoc :=
  { givenName := "Ada", familyName := "Lovelace", birthday := "1815-12-10"
    nationality := "fr", email := "ada@example.org", phoneCountry := "33"
    phoneNumber := "601020304", addressLine := "1 rue X", city := "Paris"
    postalCode := "75001", countryCode := "fr"
    employers :=
      [{ orgName := "Acme", orgCity := "Paris", orgCountry := "fr"
         positions :=
           [{ title := "Dev", startText := "2020-01", endText := "2021-01",
              currentText := "false", description := "Built things" }] }]
    educations :=
      [{ instName := "ENS", instCity := "Paris", instCountry := "fr", instURL := ""
         startText := "2010-09", endText := "2013-06", ongoingText := "false"
         degreeName := "Maths degree", skillsCovered := "" }]
    motherLanguages := ["fre"], foreignLanguages := []
    competencies :=
      [{ taxonomyID := "language", idText := "fre"
         dims :=
           [("CEF-Understanding-Listening", "C2"), ("CEF-Understanding-Reading", "C2"),
            ("CEF-Speaking-Interaction", "C2"), ("CEF-Speaking-Production", "C2"),
            ("CEF-Writing-Production", "C2")] }]
    attachments :=
      [{ fileType := "photo", instructions := "ProfilePicture", embeddedData := "QUJD" }] }

/-- A document whose single study has normalized-equal but raw-distinct
start and finish dates (used against claim C2). -/
def c2CounterDoc : EDoc :=
  { givenName := "Ada", familyName := "Lovelace", birthday := "", nationality := ""
    email := "", phoneCountry := "", phoneNumber := "", addressLine := ""
    city := "", postalCode := "", countryCode := ""
    employers := []
    educations :=
      [{ instName := "ENS", instCity := "", instCountry := "", instURL := ""
         startText := "2023-11", endText := "2023-11-01", ongoingText := ""
         degreeName := "Mathematics", skillsCovered := "" }]
    motherLanguages := [], foreignLanguages := []
    competencies := [], attachments := [] }

/-- The spec's scenario document: a single study named after the SAFe
certification with identical start and finish months. -/
def c2ScenarioDoc : EDoc :=
  { givenName := "Ada", familyName := "Lovelace", birthday := "", nationality := ""
    email := "", phoneCountry := "", phoneNumber := "", addressLine := ""
    city := "", postalCode := "", countryCode := ""
    employers := []
    educations :=
      [{ instName := "Scaled Agile, Inc.", instCity := "", instCountry := "", instURL := ""
         startText := "2023-11", endText := "2023-11", ongoingText := "false"
         degreeName := "Certified SAFe 6 Scrum Master", skillsCovered := "" }]
    motherLanguages := [], foreignLanguages := []
    competencies := [], attachments := [] }

/-- A current role (no finish date), for claim C4. -/
def c4WitnessRole : MacRole :=
  { name := "Dev", startDate := "2020-01", finishDate := none
    fullDescription := "", notes := "", challenges := [] }

def c4WitnessJob : MacJob :=
  { orgName := "Acme", orgCountry := "", orgCity := "", roles := [c4WitnessRole] }

/-- A record with one current role (no finish date), for claim C4. -/
def c4WitnessMac : MacRecord :=
  { settingsLanguage := "fr", name := "Ada", surnames := "Lovelace", birthday := ""
    locCountry := "", locRegion := "", locMunicipality := "", locPostalCode := ""
    locAddress := "", relevantLinks := [], emails := [], phones := []
    jobs := [c4WitnessJob]
    studies := [], languages := [], profilePicture := "" }

/-- A study lacking a finish date, for claim C10. -/
def c10WitnessStudy : MacStudy :=
  { studyType := "officialDegree", degreeAchieved := false, name := "Maths"
    startDate := "2010-09", finishDate := none, description := none
    instName := "ENS", instURL := none, instCountry := "", instCity := "" }

/-- A record with one study lacking a finish date, for claim C10. -/
def c10WitnessMac : MacRecord :=
  { settingsLanguage := "fr", name := "Ada", surnames := "Lovelace", birthday := ""
    locCountry := "", locRegion := "", locMunicipality := "", locPostalCode := ""
    locAddress := "", relevantLinks := [], emails := [], phones := []
    jobs := []
    studies := [c10WitnessStudy]
    languages := [], profilePicture := "" }

/-- A structurally complete document whose only `CountryCode` is lowercase
but three letters long (used against claim C9). -/
def c9Doc : XmlNode :=
  .node "http://www.europass.eu/1.0" "Candidate" ""
    [.node "http://www.hr-xml.org/3" "DocumentID" "" [],
     .node "http://www.europass.eu/1.0" "CandidateSupplier" "" [],
     .node "http://www.europass.eu/1.0" "CandidatePerson" "" [],
     .node "http://www.europass.eu/1.0" "CandidateProfile" ""
       [.node "http://www.europass.eu/1.0" "CountryCode" "fra" []]]

def c9Raw : String :=
  "<?xml version=\"1.0\" encoding=\"UTF-8\"?><Candidate></Candidate>"

/-! ## Generic helper lemmas -/

theorem data_append (a b : String) : (a ++ b).data = a.data ++ b.data :=
  String.data_append a b

theorem str_ne_of_open_tag (s t : String)
    (h : s.data.takeWhile (fun c => c ≠ '>') ≠ t.data.takeWhile (fun c => c ≠ '>')) :
    s ≠ t := by
  intro he
  exact h (by rw [he])

theorem takeWhile_append_left (p : Char → Bool) (a b : List Char)
    (h : (a.takeWhile p).length < a.length) :
    (a ++ b).takeWhile p = a.takeWhile p := by
  induction a with
  | nil => simp at h
  | cons c tl ih =>
    by_cases hc : p c
    · simp [List.takeWhile_cons, hc] at h ⊢
      exact ih (by omega)
    · simp [List.takeWhile_cons, hc]

/-- A constant-headed generated line differs from a target line whose
opening tag differs, whatever the interpolated value is. -/
theorem genLine_ne (a v b t : String)
    (h1 : (a.data.takeWhile (fun c => c ≠ '>')).length < a.data.length)
    (h2 : a.data.takeWhile (fun c => c ≠ '>') ≠ t.data.takeWhile (fun c => c ≠ '>')) :
    a ++ v ++ b ≠ t := by
  apply str_ne_of_open_tag
  have hd : (a ++ v ++ b).data = a.data ++ (v.data ++ b.data) := by
    simp [data_append]
  rw [hd, takeWhile_append_left _ _ _ h1]
  exact h2

theorem notMem_ite_nil {α} (x : α) (l : List α) (p : Prop) [Decidable p]
    (h : x ∉ l) : x ∉ (if p then l else []) := by
  split
  · exact h
  · simp

theorem flatMap_infix {α β} (f : α → List β) {l : List α} {a : α} (ha : a ∈ l) :
    f a <:+: l.flatMap f := by
  induction l with
  | nil => cases ha
  | cons b tl ih =>
    rcases List.mem_cons.mp ha with rfl | hmem
    · exact ⟨[], tl.flatMap f, by simp⟩
    · obtain ⟨s, t, he⟩ := ih hmem
      exact ⟨f b ++ s, t, by rw [List.flatMap_cons, ← he]; simp [List.append_assoc]⟩

theorem infix_append_outer {α} {l m : List α} (pre post : List α) (h : l <:+: m) :
    l <:+: pre ++ m ++ post := by
  obtain ⟨s, t, he⟩ := h
  exact ⟨pre ++ s, t ++ post, by rw [← he]; simp⟩

theorem length_flatMap_one {α β} (l : List α) (f : α → List β)
    (h : ∀ x ∈ l, (f x).length = 1) : (l.flatMap f).length = l.length := by
  induction l with
  | nil => rfl
  | cons a tl ih =>
    simp only [List.flatMap_cons, List.length_append, List.length_cons]
    rw [h a (by simp), ih (fun x hx => h x (by simp [hx]))]
    omega

theorem foldl_preserve {α β} (P : α → Prop) (step : α → β → α) (l : List β) (init : α)
    (h0 : P init) (hstep : ∀ a b, b ∈ l → P a → P (step a b)) :
    P (l.foldl step init) := by
  induction l generalizing init with
  | nil => exact h0
  | cons b tl ih =>
    exact ih (step init b) (hstep init b (by simp) h0)
      (fun a c hc ha => hstep a c (by simp [hc]) ha)

/-! ## Date normalizer lemmas and claim C6 -/

theorem validateDateL_shape (cs : List Char) :
    validateDateL cs = [] ∨ isYearMonthL (validateDateL cs) = true := by
  unfold validateDateL
  split
  all_goals try (exact Or.inl rfl)
  all_goals
    (split
     · exact Or.inr (by simp_all [isYearMonthL])
     · exact Or.inl rfl)

/-- Claim C6: `_validate_date` is total on strings and returns either the
empty string or a `YYYY-MM`-shaped string; in particular it maps `2024` to
`2024-01`, `2024-03-17` to `2024-03`, `03/2024` to `2024-03`, and
`not-a-date` to the empty string. -/
theorem c6_date_normalization :
    (∀ s : String, validateDate s = "" ∨ isYearMonth (validateDate s) = true) ∧
    validateDate "2024" = "2024-01" ∧
    validateDate "2024-03-17" = "2024-03" ∧
    validateDate "03/2024" = "2024-03" ∧
    validateDate "not-a-date" = "" := by
  refine ⟨fun s => ?_, by decide, by decide, by decide, by decide⟩
  unfold validateDate
  split
  · exact Or.inl rfl
  · rcases validateDateL_shape (pyStripL s.data) with h | h
    · exact Or.inl (by rw [h])
    · exact Or.inr h

/-! ## Claim C7 (code tables) -/

/-- Claim C7 counterexample: `_language_to_iso639b` does not map the
table-missing input `klingon` to the empty string; it falls back to the
first three characters. -/
theorem c7_counterexample :
    langMapping.lookup "klingon" = none ∧
    languageToIso639b "klingon" = "kli" ∧ languageToIso639b "klingon" ≠ "" := by
  exact ⟨by decide, by decide, by decide⟩

/-- Claim C7 amended: on table-missing inputs, `_phone_country_to_iso`
returns the empty string; `_country_to_code` returns the empty string
unless the lowered-stripped input already has exactly two characters, in
which case it is passed through unchanged; `_language_to_iso639b` falls
back to the first three characters of the lowered-stripped name and
returns the empty string only for an empty name. All three are total, so
an unmapped code never fails the surrounding export. -/
theorem c7_amended :
    (∀ s : String, phoneMapping.lookup s = none → phoneCountryToIso s = "") ∧
    (∀ s : String, s ≠ "" → (pyStrip (pyLower s)).data.length ≠ 2 →
      countryMapping.lookup (pyStrip (pyLower s)) = none → countryToCode s = "") ∧
    (∀ s : String, s ≠ "" → (pyStrip (pyLower s)).data.length = 2 →
      countryToCode s = pyStrip (pyLower s)) ∧
    (∀ s : String, langMapping.lookup (pyStrip (pyLower s)) = none →
      languageToIso639b s =
        (if pyStrip (pyLower s) = "" then ""
         else String.mk ((pyStrip (pyLower s)).data.take 3))) := by
  refine ⟨fun s h => ?_, fun s h1 h2 h3 => ?_, fun s h1 h2 => ?_, fun s h => ?_⟩
  · simp [phoneCountryToIso, h]
  · have h2a : (pyStrip (pyLower s)).length ≠ 2 := h2
    simp [countryToCode, h1, h2a, h3]
  · have h2a : (pyStrip (pyLower s)).length = 2 := h2
    simp [countryToCode, h1, h2a]
  · simp [languageToIso639b, h]

/-- Claim C7 witness: the amended statement applied to concrete unmapped
codes. -/
theorem c7_witness :
    phoneCountryToIso "999" = "" ∧
    countryToCode "Atlantis" = "" ∧
    countryToCode "ZZ" = "zz" ∧
    languageToIso639b "klingon" = "kli" :=
  ⟨c7_amended.1 "999" (by decide),
   c7_amended.2.1 "Atlantis" (by decide) (by decide) (by decide),
   (c7_amended.2.2.1 "ZZ" (by decide) (by decide)).trans (by decide),
   (c7_amended.2.2.2 "klingon" (by decide)).trans (by decide)⟩

/-! ## Claim C8 (resume store bound) -/

/-- Claim C8 (code bug): fifty-one successive `import_cv` insertions leave
fifty-one records resident, exceeding `_MAX_RESUMES = 50` — the eviction
block of `import_cv` is dead code placed after its `return` statements, so
only `create_resume` ever evicts. -/
theorem c8_store_overflow :
    (((List.range 51).map (fun n => toString n)).foldl storeImportInsert []).length = 51 ∧
    maxResumes <
      (((List.range 51).map (fun n => toString n)).foldl storeImportInsert []).length ∧
    (∀ store rid, (storeCreateInsert store rid).length ≤ max store.length (maxResumes + 1)) := by
  refine ⟨by decide, by decide, fun store rid => ?_⟩
  unfold storeCreateInsert
  split
  · simp
    omega
  · simp [maxResumes] at *
    omega

/-! ## Claim C5 (depth capping) -/

/-- Claim C5: the Quill list conversion emits exactly one item per input
list item, and every emitted item carries either no `ql-indent` class
(indent 0) or an indent at most the configured maximum. -/
theorem c5_depth_capping (chunks : List QChunk) (maxIndent : Nat) :
    (convertListsToQuill chunks maxIndent).countP isLiChunk = chunks.countP isLiChunk ∧
    ∀ ch ∈ convertListsToQuill chunks maxIndent, isLiChunk ch = true →
      ∃ i, i ≤ maxIndent ∧ ch = QChunk.li (liOutAttrs i) := by
  constructor
  · rw [convertListsToQuill, List.countP_map]
    induction chunks with
    | nil => rfl
    | cons a tl ih =>
      cases a <;> simp_all [List.countP_cons, isLiChunk]
  · intro ch hch hli
    rw [convertListsToQuill] at hch
    simp only [List.mem_map] at hch
    obtain ⟨a, _, rfl⟩ := hch
    cases a with
    | text s => simp [isLiChunk] at hli
    | li attrs =>
      exact ⟨processLiIndent attrs maxIndent, Nat.min_le_right _ _, rfl⟩

/-- Claim C5 witness: a deeply indented heading-child item is re-emitted
(not dropped) with its indent capped at 1. -/
theorem c5_witness :
    (convertListsToQuill [QChunk.li "class=\"ql-indent-5 heading-child\""] 1).countP
        isLiChunk =
      ([QChunk.li "class=\"ql-indent-5 heading-child\""] : List QChunk).countP isLiChunk ∧
    ∃ i, i ≤ 1 ∧
      QChunk.li (liOutAttrs 1) = QChunk.li (liOutAttrs i) := by
  refine ⟨(c5_depth_capping [QChunk.li "class=\"ql-indent-5 heading-child\""] 1).1, ?_⟩
  obtain ⟨i, hi, he⟩ :=
    (c5_depth_capping [QChunk.li "class=\"ql-indent-5 heading-child\""] 1).2
      (QChunk.li (liOutAttrs 1)) (by decide) (by decide)
  exact ⟨i, hi, he⟩

/-! ## Claim C9 (validator country codes) -/

/-- Claim C9 amended: a `CountryCode` element whose stripped non-empty
text is not all-lowercase makes `validate` return an invalid result (the
violation lands in the error list); a lowercase code of the wrong length
is only surfaced as a warning and does not affect validity. -/
theorem c9_amended (root : XmlNode) (rawXml : String) (n : XmlNode)
    (hn : n ∈ iterNodes root) (hlocal : n.localName = "CountryCode")
    (htext : n.textContent ≠ "")
    (hlower : pyStrip n.textContent ≠ pyLower (pyStrip n.textContent)) :
    (validateModel root rawXml).is_valid = false ∧
    ("CountryCode " ++ pyStrip n.textContent ++ " must be lowercase")
      ∈ (validateModel root rawXml).errors := by
  have hmem : ("CountryCode " ++ pyStrip n.textContent ++ " must be lowercase")
      ∈ (checkCountryCodes root).1 := by
    unfold checkCountryCodes
    simp only [List.mem_flatMap]
    exact ⟨n, hn, by simp [hlocal, htext, hlower]⟩
  have hmem2 : ("CountryCode " ++ pyStrip n.textContent ++ " must be lowercase")
      ∈ (validateModel root rawXml).errors := by
    unfold validateModel
    simp only [List.mem_append]
    tauto
  refine ⟨?_, hmem2⟩
  have hne := List.ne_nil_of_mem hmem2
  show (validateModel root rawXml).errors.isEmpty = false
  cases hlist : (validateModel root rawXml).errors with
  | nil => exact absurd hlist hne
  | cons a tl => rfl

/-- Claim C9 witness: the amended statement applied to a document holding
`<CountryCode>FRA</CountryCode>`. -/
theorem c9_witness :
    (validateModel
      (.node "http://www.europass.eu/1.0" "Candidate" ""
        [.node "http://www.europass.eu/1.0" "CountryCode" "FRA" []]) "x").is_valid
      = false :=
  (c9_amended
    (.node "http://www.europass.eu/1.0" "Candidate" ""
      [.node "http://www.europass.eu/1.0" "CountryCode" "FRA" []]) "x"
    (.node "http://www.europass.eu/1.0" "CountryCode" "FRA" [])
    (by simp [iterNodes, iterNodesList]) (by decide) (by decide) (by decide)).1

/-- Claim C9 counterexample: a structurally valid document whose only
`CountryCode` has the three-letter lowercase text `fra` — not exactly two
lowercase characters — still validates as `is_valid = true`; the length
violation is only a warning. -/
theorem c9_counterexample :
    (validateModel c9Doc c9Raw).is_valid = true ∧
    ((iterNodes c9Doc).filter (fun nd => nd.localName == "CountryCode")).map
        XmlNode.textContent = ["fra"] ∧
    (pyStrip "fra").data.length ≠ 2 ∧
    pyStrip "fra" = pyLower (pyStrip "fra") ∧
    (validateModel c9Doc c9Raw).warnings ≠ [] := by
  exact ⟨by decide, by decide, by decide, by decide, by decide⟩

/-! ## Claim C2 (certification heuristic) -/

/-- Claim C2 amended: a study is classified as a certification iff its
degree name contains `certif` or `safe` case-insensitively, or its
non-empty raw (stripped, but not date-normalized) start and finish date
strings are identical; the spec's scenario (a `SAFe` study spanning
2023-11 to 2023-11) is classified as a certification. -/
theorem c2_amended :
    (∀ d : EDoc, (importMac d).studies = d.educations.map importStudy) ∧
    (∀ ed : EEducation,
      ((importStudy ed).studyType = "certification" ↔
        (containsStr "certif" (pyLower ed.degreeName) = true ∨
         containsStr "safe" (pyLower ed.degreeName) = true ∨
         (pyStrip ed.startText = pyStrip ed.endText ∧ pyStrip ed.startText ≠ "")))) ∧
    (importMac c2ScenarioDoc).studies.map (fun st => st.studyType) = ["certification"] := by
  refine ⟨fun d => rfl, fun ed => ?_, by decide⟩
  have hproj : (importStudy ed).studyType =
      if studyCertCond ed.degreeName (pyStrip ed.startText) (pyStrip ed.endText)
      then "certification" else "officialDegree" := rfl
  rw [hproj]
  constructor
  · intro h
    have hb : studyCertCond ed.degreeName (pyStrip ed.startText)
        (pyStrip ed.endText) = true := by
      by_contra hb
      simp only [Bool.not_eq_true] at hb
      rw [hb] at h
      exact absurd h (by decide)
    unfold studyCertCond at hb
    simp only [Bool.or_eq_true, Bool.and_eq_true, beq_iff_eq, ne_eq,
      decide_eq_true_eq] at hb
    tauto
  · intro h
    have hb : studyCertCond ed.degreeName (pyStrip ed.startText)
        (pyStrip ed.endText) = true := by
      unfold studyCertCond
      rcases h with h1 | h2 | ⟨heq, hne⟩
      · simp [h1]
      · simp [h2]
      · have hend : pyStrip ed.endText ≠ "" := heq ▸ hne
        simp [heq, hend]
    rw [hb]
    rfl

/-- Claim C2 counterexample: a study named `Mathematics` with raw dates
`2023-11` and `2023-11-01` — whose normalized start and finish dates are
both the non-empty `2023-11` — is classified `officialDegree`, while the
claim (normalized-date comparison) requires `certification`. -/
theorem c2_counterexample :
    (importMac c2CounterDoc).studies.map (fun st => st.studyType) = ["officialDegree"] ∧
    validateDate "2023-11" = "2023-11" ∧
    validateDate "2023-11-01" = "2023-11" ∧
    validateDate "2023-11" ≠ "" ∧
    containsStr "certif" (pyLower "Mathematics") = false ∧
    containsStr "safe" (pyLower "Mathematics") = false := by
  exact ⟨by decide, by decide, by decide, by decide, by decide, by decide⟩

/-! ## Base64 lemmas and claim C3 -/

theorem b64chars_lt128 (v : Nat) : b64chars v < 128 := by
  unfold b64chars
  repeat' split
  all_goals omega

theorem b64chars_ne_61 (v : Nat) : b64chars v ≠ 61 := by
  unfold b64chars
  repeat' split
  all_goals omega

theorem b64charDecode_b64chars : ∀ v, v < 64 → b64charDecode (b64chars v) = some v := by
  decide

theorem b64encode_mem_lt128 (bs : List Nat) : ∀ x ∈ b64encode bs, x < 128 := by
  induction bs using b64encode.induct with
  | case1 => simp [b64encode]
  | case2 a =>
    intro x hx
    simp only [b64encode, List.mem_cons, List.not_mem_nil, or_false] at hx
    rcases hx with rfl | rfl | rfl | rfl
    all_goals first | exact b64chars_lt128 _ | omega
  | case3 a b =>
    intro x hx
    simp only [b64encode, List.mem_cons, List.not_mem_nil, or_false] at hx
    rcases hx with rfl | rfl | rfl | rfl
    all_goals first | exact b64chars_lt128 _ | omega
  | case4 a b c rest ih =>
    intro x hx
    simp only [b64encode, List.mem_cons] at hx
    rcases hx with rfl | rfl | rfl | rfl | hx
    all_goals first | exact b64chars_lt128 _ | exact ih x hx

theorem b64encode_ne_nil (bs : List Nat) (h : bs ≠ []) : b64encode bs ≠ [] := by
  match bs with
  | [] => exact absurd rfl h
  | [a] => simp [b64encode]
  | [a, b] => simp [b64encode]
  | a :: b :: c :: rest => simp [b64encode]

/-- Decoding inverts encoding on byte lists. -/
theorem b64encode_roundtrip (bs : List Nat) :
    (∀ x ∈ bs, x < 256) → b64decode (b64encode bs) = some bs := by
  induction bs using b64encode.induct with
  | case1 => intro _; rfl
  | case2 a =>
    intro h
    have ha : a < 256 := h a (by simp)
    simp only [b64encode, b64decode]
    rw [b64charDecode_b64chars _ (by omega), b64charDecode_b64chars _ (by omega)]
    simp
    omega
  | case3 a b =>
    intro h
    have ha : a < 256 := h a (by simp)
    have hb : b < 256 := h b (by simp)
    have e1 := b64charDecode_b64chars (a / 4) (by omega)
    have e2 := b64charDecode_b64chars (a % 4 * 16 + b / 16) (by omega)
    have e3 := b64charDecode_b64chars (b % 16 * 4) (by omega)
    have n3 := b64chars_ne_61 (b % 16 * 4)
    simp only [b64encode, b64decode]
    simp [e1, e2, e3, n3]
    omega
  | case4 a b c rest ih =>
    intro h
    have ha : a < 256 := h a (by simp)
    have hb : b < 256 := h b (by simp)
    have hc : c < 256 := h c (by simp)
    have hrest : ∀ x ∈ rest, x < 256 := fun x hx => h x (by simp [hx])
    have e1 := b64charDecode_b64chars (a / 4) (by omega)
    have e2 := b64charDecode_b64chars (a % 4 * 16 + b / 16) (by omega)
    have e3 := b64charDecode_b64chars (b % 16 * 4 + c / 64) (by omega)
    have e4 := b64charDecode_b64chars (c % 64) (by omega)
    have n3 := b64chars_ne_61 (b % 16 * 4 + c / 64)
    have n4 := b64chars_ne_61 (c % 64)
    simp only [b64encode, b64decode]
    simp [e1, e2, e3, e4, n3, n4, ih hrest]
    omega

theorem charToNat_ofNat {n : Nat} (h : n < 55296) : (Char.ofNat n).toNat = n := by
  have hv : n.isValidChar := Or.inl h
  simp [Char.ofNat, hv, Char.ofNatAux, Char.toNat]
  rfl

theorem charUtf8_ofNat {b : Nat} (h : b < 128) : charUtf8 (Char.ofNat b) = [b] := by
  have ht : (Char.ofNat b).toNat = b := charToNat_ofNat (by omega)
  simp [charUtf8, ht, h]

theorem utf8Bytes_append (a b : List Char) :
    utf8Bytes (a ++ b) = utf8Bytes a ++ utf8Bytes b := by
  simp [utf8Bytes]

theorem utf8Bytes_map_ofNat (bs : List Nat) (h : ∀ x ∈ bs, x < 128) :
    utf8Bytes (bs.map Char.ofNat) = bs := by
  induction bs with
  | nil => rfl
  | cons a tl ih =>
    have hstep : utf8Bytes (List.map Char.ofNat (a :: tl)) =
        charUtf8 (Char.ofNat a) ++ utf8Bytes (tl.map Char.ofNat) := rfl
    rw [hstep, charUtf8_ofNat (h a (by simp)), ih (fun x hx => h x (by simp [hx]))]
    rfl

/-- Claim C3: for a record whose `profilePicture` is the base64 rendering
of raw JPEG bytes `B` (recognized by its `/9j/` prefix), the exported
`oa:EmbeddedData` payload is `base64("data:image/jpeg;base64," ++
base64(B))`: one base64 decode of the payload yields exactly the data-URI
byte string, and decoding the segment after `base64,` yields exactly
`B`. -/
theorem c3_photo_double_encoding (B : List Nat) (h256 : ∀ x ∈ B, x < 256)
    (hjpeg : startsWithStr "/9j/" (strOfBytes (b64encode B)) = true) :
    utf8Bytes (exportPicStr (strOfBytes (b64encode B))).data
      = b64encode (dataUriJpegBytes ++ b64encode B) ∧
    b64decode (b64encode (dataUriJpegBytes ++ b64encode B))
      = some (dataUriJpegBytes ++ b64encode B) ∧
    b64decode ((dataUriJpegBytes ++ b64encode B).drop dataUriJpegBytes.length)
      = some B := by
  have henc128 := b64encode_mem_lt128 B
  have hdata : (strOfBytes (b64encode B)).data = (b64encode B).map Char.ofNat := rfl
  have hargBytes :
      utf8Bytes ("data:image/jpeg;base64,".data ++ (strOfBytes (b64encode B)).data)
        = dataUriJpegBytes ++ b64encode B := by
    rw [hdata, utf8Bytes_append, utf8Bytes_map_ofNat _ henc128]
    rfl
  have hpayload : exportPicStr (strOfBytes (b64encode B))
      = strOfBytes (b64encode (dataUriJpegBytes ++ b64encode B)) := by
    unfold exportPicStr
    rw [if_pos hjpeg, hargBytes]
  have hlt : ∀ x ∈ dataUriJpegBytes ++ b64encode B, x < 256 := by
    intro x hx
    rcases List.mem_append.mp hx with hx | hx
    · have : ∀ y ∈ dataUriJpegBytes, y < 256 := by decide
      exact this x hx
    · exact Nat.lt_trans (henc128 x hx) (by omega)
  refine ⟨?_, b64encode_roundtrip _ hlt, ?_⟩
  · rw [hpayload]
    have : (strOfBytes (b64encode (dataUriJpegBytes ++ b64encode B))).data
        = (b64encode (dataUriJpegBytes ++ b64encode B)).map Char.ofNat := rfl
    rw [this, utf8Bytes_map_ofNat _ (b64encode_mem_lt128 _)]
  · rw [List.drop_left]
    exact b64encode_roundtrip B h256

/-- Claim C3 witness: the theorem applied to the three JPEG magic bytes
`ff d8 ff`, whose base64 rendering is exactly `/9j/`. -/
theorem c3_witness :
    (∀ x ∈ ([255, 216, 255] : List Nat), x < 256) ∧
    startsWithStr "/9j/" (strOfBytes (b64encode [255, 216, 255])) = true ∧
    b64decode ((dataUriJpegBytes ++ b64encode [255, 216, 255]).drop
        dataUriJpegBytes.length)
      = some [255, 216, 255] :=
  ⟨by decide, by decide,
   (c3_photo_double_encoding [255, 216, 255] (by decide) (by decide)).2.2⟩

/-! ## Claim C4 (current position) -/

/-- No line of a current role's `EmployerHistory` block opens or closes an
`eures:EndDate` element. -/
theorem roleLines_no_endDate (orgName orgCity orgCountry : String) (role : MacRole)
    (hfd : validateDate (role.finishDate.getD "") = "") :
    euresEndDateOpen ∉ roleLines orgName orgCity orgCountry role ∧
    euresEndDateClose ∉ roleLines orgName orgCity orgCountry role := by
  constructor
  all_goals
    intro hmem
    simp [roleLines, hfd, List.mem_ite_nil_right] at hmem
    rcases hmem with
      h|h|h|h|⟨_, h|⟨_,h⟩|⟨_,h⟩|h⟩|h|h|h|h|h|h|h|h|h|h|h|⟨_,h⟩|⟨_,h⟩|h|h
    all_goals first
      | exact absurd h (by decide)
      | exact absurd h.symm (genLine_ne _ _ _ _ (by decide) (by decide))

/-- Claim C4: for a role with no `finishDate`, the exported
`eures:EmploymentPeriod` block contains an `hr:CurrentIndicator` element
with text `true` and no `eures:EndDate` element at all (no placeholder
date), and that block appears verbatim inside the full document emitted by
`_mac_to_europass_xml`. -/
theorem c4_current_position (mac : MacRecord) (today : String) (job : MacJob)
    (role : MacRole) (hj : job ∈ mac.jobs) (hr : role ∈ job.roles)
    (hf : role.finishDate = none) :
    currentIndicatorLine true ∈
      roleLines job.orgName job.orgCity (countryToCode job.orgCountry) role ∧
    euresEndDateOpen ∉
      roleLines job.orgName job.orgCity (countryToCode job.orgCountry) role ∧
    euresEndDateClose ∉
      roleLines job.orgName job.orgCity (countryToCode job.orgCountry) role ∧
    roleLines job.orgName job.orgCity (countryToCode job.orgCountry) role <:+:
      macToEuropassXmlLines today mac := by
  have hfd : validateDate (role.finishDate.getD "") = "" := by rw [hf]; rfl
  obtain ⟨hno, hnc⟩ :=
    roleLines_no_endDate job.orgName job.orgCity (countryToCode job.orgCountry) role hfd
  refine ⟨?_, hno, hnc, ?_⟩
  · simp [roleLines, hfd, List.mem_ite_nil_right]
  · have h1 : roleLines job.orgName job.orgCity (countryToCode job.orgCountry) role
        <:+: jobLines job := by
      unfold jobLines
      exact flatMap_infix _ hr
    have h2 : jobLines job <:+: mac.jobs.flatMap jobLines := flatMap_infix _ hj
    have h3 : mac.jobs.flatMap jobLines <:+: employmentLines mac.jobs := by
      unfold employmentLines
      rw [if_pos (List.ne_nil_of_mem hj)]
      exact ⟨["        <EmploymentHistory>"], ["        </EmploymentHistory>"], rfl⟩
    have h4 : employmentLines mac.jobs <:+: macToEuropassXmlLines today mac := by
      unfold macToEuropassXmlLines
      exact ⟨candidateHeaderLines today ++ supplierLines mac ++ personLines mac ++
          profileOpenLines mac,
        educationLines mac.studies ++ ["        <eures:Licenses />"] ++
          certSection mac.studies ++ langSection mac.languages ++
          ["        <EmploymentReferences />"] ++
          photoLines (exportPicStr mac.profilePicture) ++ placeholderLines ++
          ["    </CandidateProfile>"] ++ renderingLines ++ ["</Candidate>"],
        by simp [List.append_assoc]⟩
    exact ((h1.trans h2).trans h3).trans h4

/-- Claim C4 witness: the theorem applied to a concrete record with one
current role. -/
theorem c4_witness :
    currentIndicatorLine true ∈
      roleLines c4WitnessJob.orgName c4WitnessJob.orgCity
        (countryToCode c4WitnessJob.orgCountry) c4WitnessRole ∧
    euresEndDateOpen ∉
      roleLines c4WitnessJob.orgName c4WitnessJob.orgCity
        (countryToCode c4WitnessJob.orgCountry) c4WitnessRole ∧
    euresEndDateClose ∉
      roleLines c4WitnessJob.orgName c4WitnessJob.orgCity
        (countryToCode c4WitnessJob.orgCountry) c4WitnessRole ∧
    roleLines c4WitnessJob.orgName c4WitnessJob.orgCity
        (countryToCode c4WitnessJob.orgCountry) c4WitnessRole <:+:
      macToEuropassXmlLines "20250101" c4WitnessMac :=
  c4_current_position c4WitnessMac "20250101" c4WitnessJob c4WitnessRole
    (by decide) (by decide) (by decide)

/-! ## Claim C10 (study end-date fallback) -/

/-- Claim C10: for a study whose finish date is absent or rejected by date
normalization, the exported `EducationOrganizationAttendance` block still
contains an `EndDate` element whose `hr:FormattedDateTime` equals the
normalized start date, together with `Ongoing` set to `true`, and that
block appears verbatim inside the full document emitted by
`_mac_to_europass_xml`. -/
theorem c10_study_end_date (mac : MacRecord) (today : String) (st : MacStudy)
    (hs : st ∈ mac.studies) (hf : validateDate (st.finishDate.getD "") = "") :
    [eduEndDateOpen, eduFmtLine (validateDate st.startDate), eduEndDateClose]
      <:+: studyLines st ∧
    ongoingLine true ∈ studyLines st ∧
    studyLines st <:+: macToEuropassXmlLines today mac := by
  refine ⟨?_, ?_, ?_⟩
  · refine ⟨["            <EducationOrganizationAttendance>",
      "                <hr:OrganizationName>" ++ escapeXml st.instName ++
        "</hr:OrganizationName>",
      "                <OrganizationContact>",
      "                    <Communication>"] ++
      (if st.instCity ≠ "" || countryToCode st.instCountry ≠ "" then
        ["                        <Address>"] ++
        (if st.instCity ≠ "" then
          ["                            <oa:CityName>" ++ escapeXml st.instCity ++
            "</oa:CityName>"]
         else []) ++
        (if countryToCode st.instCountry ≠ "" then
          ["                            <CountryCode>" ++ countryToCode st.instCountry ++
            "</CountryCode>"]
         else []) ++
        ["                        </Address>"]
       else []) ++
      ["                    </Communication>"] ++
      (match st.instURL with
       | some url =>
         if url ≠ "" then
           ["                    <Communication>",
            "                        <ChannelCode>Web</ChannelCode>",
            "                        <oa:URI>" ++ escapeXml url ++ "</oa:URI>",
            "                    </Communication>"]
         else []
       | none => []) ++
      ["                </OrganizationContact>",
       "                <AttendancePeriod>",
       "                    <StartDate>",
       eduFmtLine (validateDate st.startDate),
       "                    </StartDate>"],
      [ongoingLine true,
       "                </AttendancePeriod>",
       "                <EducationDegree>",
       "                    <hr:DegreeName>" ++ escapeXml st.name ++ "</hr:DegreeName>"] ++
      (if st.description.getD "" ≠ "" then
        ["                    <OccupationalSkillsCovered>" ++
          escapeXml (st.description.getD "") ++ "</OccupationalSkillsCovered>"]
       else []) ++
      ["                </EducationDegree>",
       "            </EducationOrganizationAttendance>"], ?_⟩
    simp [studyLines, hf, List.append_assoc]
  · simp [studyLines, hf, List.mem_ite_nil_right]
  · have h1 : studyLines st <:+: mac.studies.flatMap studyLines := flatMap_infix _ hs
    have h2 : mac.studies.flatMap studyLines <:+: educationLines mac.studies := by
      unfold educationLines
      rw [if_pos (List.ne_nil_of_mem hs)]
      exact ⟨["        <EducationHistory>"], ["        </EducationHistory>"], rfl⟩
    have h3 : educationLines mac.studies <:+: macToEuropassXmlLines today mac := by
      unfold macToEuropassXmlLines
      exact ⟨candidateHeaderLines today ++ supplierLines mac ++ personLines mac ++
          profileOpenLines mac ++ employmentLines mac.jobs,
        ["        <eures:Licenses />"] ++ certSection mac.studies ++
          langSection mac.languages ++ ["        <EmploymentReferences />"] ++
          photoLines (exportPicStr mac.profilePicture) ++ placeholderLines ++
          ["    </CandidateProfile>"] ++ renderingLines ++ ["</Candidate>"],
        by simp [List.append_assoc]⟩
    exact (h1.trans h2).trans h3

/-- Claim C10 witness: the theorem applied to a concrete record with one
finish-date-less study. -/
theorem c10_witness :
    [eduEndDateOpen, eduFmtLine (validateDate c10WitnessStudy.startDate),
      eduEndDateClose] <:+: studyLines c10WitnessStudy ∧
    ongoingLine true ∈ studyLines c10WitnessStudy ∧
    studyLines c10WitnessStudy <:+: macToEuropassXmlLines "20250101" c10WitnessMac :=
  c10_study_end_date c10WitnessMac "20250101" c10WitnessStudy (by decide) (by decide)

/-! ## Claim C1 (round-trip) lemmas -/

theorem lookup_mem (m : List (String × String)) (k v : String)
    (h : List.lookup k m = some v) : (k, v) ∈ m := by
  induction m with
  | nil => cases h
  | cons p rest ih =>
    obtain ⟨k0, v0⟩ := p
    simp only [List.lookup] at h
    by_cases hk : (k == k0) = true
    · rw [hk] at h
      simp at h
      subst h
      have hk2 : k = k0 := beq_iff_eq.mp hk
      subst hk2
      exact List.mem_cons_self _ _
    · rw [Bool.not_eq_true] at hk
      rw [hk] at h
      exact List.mem_cons_of_mem _ (ih h)

theorem dictInsert_vals (m : List (String × String)) (k v : String)
    (hm : ∀ kv ∈ m, kv.2 ≠ "") (hv : v ≠ "") :
    ∀ kv ∈ dictInsert m k v, kv.2 ≠ "" := by
  induction m with
  | nil =>
    intro kv hkv
    simp only [dictInsert, List.mem_singleton] at hkv
    subst hkv
    exact hv
  | cons p rest ih =>
    intro kv hkv
    simp only [dictInsert] at hkv
    split at hkv
    · rcases List.mem_cons.mp hkv with h | h
      · subst h
        exact hv
      · exact hm kv (List.mem_cons_of_mem _ h)
    · rcases List.mem_cons.mp hkv with h | h
      · subst h
        exact hm _ (List.mem_cons_self _ _)
      · exact ih (fun q hq => hm q (List.mem_cons_of_mem _ hq)) kv h

theorem compScores_vals (dims : List (String × String)) :
    ∀ kv ∈ compScores dims, kv.2 ≠ "" := by
  unfold compScores
  refine foldl_preserve (fun (m : List (String × String)) => ∀ kv ∈ m, kv.2 ≠ "") _ dims [] (by simp) ?_
  intro m dv _ hm
  split
  · rename_i hg
    simp only [Bool.and_eq_true, ne_eq, decide_eq_true_eq] at hg
    exact dictInsert_vals m dv.1 dv.2 hm hg.2
  · exact hm

theorem attachCefr_vals (code : String) (scores : List (String × String))
    (hs : ∀ kv ∈ scores, kv.2 ≠ "") (langs : List MacLanguage) :
    (∀ l ∈ langs, ∀ s, l.cefrScores = some s → ∀ kv ∈ s, kv.2 ≠ "") →
    ∀ l ∈ attachCefr code scores langs, ∀ s, l.cefrScores = some s →
      ∀ kv ∈ s, kv.2 ≠ "" := by
  induction langs with
  | nil =>
    intro _ l hl s hcs
    simp only [attachCefr, List.mem_singleton] at hl
    subst hl
    simp only [Option.some.injEq] at hcs
    subst hcs
    exact hs
  | cons l0 rest ih =>
    intro hP l hl s hcs
    simp only [attachCefr] at hl
    split at hl
    · rcases List.mem_cons.mp hl with h | h
      · subst h
        simp only [Option.some.injEq] at hcs
        subst hcs
        exact hs
      · exact hP l (List.mem_cons_of_mem _ h) s hcs
    · rcases List.mem_cons.mp hl with h | h
      · subst h
        exact hP _ (List.mem_cons_self _ _) s hcs
      · exact ih (fun q hq => hP q (List.mem_cons_of_mem _ hq)) l h s hcs

theorem importLanguages_vals (d : EDoc) :
    ∀ l ∈ importLanguages d, ∀ s, l.cefrScores = some s → ∀ kv ∈ s, kv.2 ≠ "" := by
  unfold importLanguages
  refine foldl_preserve
    (fun (langs : List MacLanguage) =>
      ∀ l ∈ langs, ∀ s, l.cefrScores = some s → ∀ kv ∈ s, kv.2 ≠ "")
    _ d.competencies _ ?_ ?_
  · intro l hl s hcs
    rcases List.mem_append.mp hl with h | h
    · obtain ⟨c, _, rfl⟩ := List.mem_map.mp h
      cases hcs
    · obtain ⟨c, _, rfl⟩ := List.mem_map.mp h
      cases hcs
  · intro langs c _ hP
    unfold applyCompetency
    split
    · split
      · dsimp only
        split
        · exact attachCefr_vals _ _ (compScores_vals c.dims) langs hP
        · exact hP
      · exact hP
    · exact hP

theorem levelToCef_ne (lv : String) : levelToCef lv ≠ "" := by
  unfold levelToCef
  dsimp only
  repeat' split
  all_goals decide

theorem dictInsert_keys_fresh (m : List (String × String)) (k v : String)
    (h : k ∉ dictKeys m) : dictKeys (dictInsert m k v) = dictKeys m ++ [k] := by
  induction m with
  | nil => rfl
  | cons p rest ih =>
    simp only [dictInsert]
    split
    · rename_i hq
      exact absurd (show k ∈ dictKeys (p :: rest) by
        simp only [dictKeys, List.map_cons, List.mem_cons]
        exact Or.inl (beq_iff_eq.mp hq).symm) h
    · have h2 : k ∉ dictKeys rest := by
        intro hh
        exact h (by simp only [dictKeys, List.map_cons, List.mem_cons]; exact Or.inr hh)
      show p.1 :: dictKeys (dictInsert rest k v) = dictKeys (p :: rest) ++ [k]
      rw [ih h2]
      rfl

theorem compScores_foldl_keys (ds : List String) (f : String → String) :
    ∀ acc : List (String × String), ds.Nodup → (∀ d ∈ ds, d ≠ "") →
      (∀ d ∈ ds, f d ≠ "") → (∀ d ∈ ds, d ∉ dictKeys acc) →
      dictKeys (List.foldl
        (fun m dv => if dv.1 ≠ "" && dv.2 ≠ "" then dictInsert m dv.1 dv.2 else m)
        acc (ds.map fun d => (d, f d))) = dictKeys acc ++ ds := by
  induction ds with
  | nil => intro acc _ _ _ _; simp
  | cons d tl ih =>
    intro acc hnd hne hf hfresh
    simp only [List.map_cons, List.foldl_cons]
    have hd : d ≠ "" := hne d (by simp)
    have hfd : f d ≠ "" := hf d (by simp)
    rw [if_pos (by simp [hd, hfd])]
    have hkeys := dictInsert_keys_fresh acc d (f d) (hfresh d (by simp))
    have hfresh2 : ∀ q ∈ tl, q ∉ dictKeys (dictInsert acc d (f d)) := by
      intro q hq hmem
      rw [hkeys] at hmem
      rcases List.mem_append.mp hmem with hm | hm
      · exact hfresh q (by simp [hq]) hm
      · simp only [List.mem_singleton] at hm
        subst hm
        exact (List.nodup_cons.mp hnd).1 hq
    rw [ih (dictInsert acc d (f d)) (List.nodup_cons.mp hnd).2
      (fun q hq => hne q (by simp [hq])) (fun q hq => hf q (by simp [hq])) hfresh2]
    rw [hkeys]
    simp

theorem exportComp_keys (l : MacLanguage)
    (hvals : ∀ s, l.cefrScores = some s → ∀ kv ∈ s, kv.2 ≠ "") :
    dictKeys (compScores (exportCompetency l).dims) = cefDims := by
  have hf : ∀ dim ∈ cefDims,
      ((List.lookup dim (l.cefrScores.getD [])).getD (levelToCef l.level)) ≠ "" := by
    intro dim _
    cases hlk : List.lookup dim (l.cefrScores.getD []) with
    | none => simpa using levelToCef_ne l.level
    | some v =>
      cases hcs : l.cefrScores with
      | none =>
        rw [hcs] at hlk
        cases hlk
      | some s =>
        rw [hcs] at hlk
        have := hvals s hcs (dim, v) (lookup_mem _ _ _ hlk)
        simpa using this
  have e : (exportCompetency l).dims = cefDims.map
      (fun d => (d, (List.lookup d (l.cefrScores.getD [])).getD (levelToCef l.level))) := rfl
  rw [e]
  unfold compScores
  have := compScores_foldl_keys cefDims
    (fun d => (List.lookup d (l.cefrScores.getD [])).getD (levelToCef l.level)) []
    (by decide) (by decide) hf (by simp [dictKeys])
  simpa using this

theorem attachCefr_keys (code : String) (scores : List (String × String))
    (hk : dictKeys scores = cefDims) (langs : List MacLanguage) :
    (∀ l ∈ langs, ∃ s, l.cefrScores = some s ∧ dictKeys s = cefDims) →
    ∀ l ∈ attachCefr code scores langs,
      ∃ s, l.cefrScores = some s ∧ dictKeys s = cefDims := by
  induction langs with
  | nil =>
    intro _ l hl
    simp only [attachCefr, List.mem_singleton] at hl
    subst hl
    exact ⟨scores, rfl, hk⟩
  | cons l0 rest ih =>
    intro hQ l hl
    simp only [attachCefr] at hl
    split at hl
    · rcases List.mem_cons.mp hl with h | h
      · subst h
        exact ⟨scores, rfl, hk⟩
      · exact hQ l (List.mem_cons_of_mem _ h)
    · rcases List.mem_cons.mp hl with h | h
      · subst h
        exact hQ _ (List.mem_cons_self _ _)
      · exact ih (fun q hq => hQ q (List.mem_cons_of_mem _ hq)) l h

theorem charUtf8_ne_nil (c : Char) : charUtf8 c ≠ [] := by
  unfold charUtf8
  dsimp only
  repeat' split
  all_goals simp

theorem utf8Bytes_ne_nil (cs : List Char) (h : cs ≠ []) : utf8Bytes cs ≠ [] := by
  cases cs with
  | nil => exact absurd rfl h
  | cons c tl =>
    have e : utf8Bytes (c :: tl) = charUtf8 c ++ utf8Bytes tl := rfl
    rw [e]
    simp [List.append_eq_nil, charUtf8_ne_nil c]

theorem strOfBytes_ne_nil (bs : List Nat) (h : bs ≠ []) : strOfBytes bs ≠ "" := by
  intro he
  apply h
  have e : (strOfBytes bs).data = bs.map Char.ofNat := rfl
  rw [he] at e
  exact (List.map_eq_nil_iff.mp e.symm)

theorem exportPicStr_empty_iff (s : String) : exportPicStr s = "" ↔ s = "" := by
  constructor
  · intro h
    by_contra hne
    revert h
    unfold exportPicStr
    split
    · exact strOfBytes_ne_nil _ (b64encode_ne_nil _ (utf8Bytes_ne_nil _
        (List.append_ne_nil_of_left_ne_nil (by decide) _)))
    · split
      · exact strOfBytes_ne_nil _ (b64encode_ne_nil _ (utf8Bytes_ne_nil _
          (List.append_ne_nil_of_left_ne_nil (by decide) _)))
      · exact hne
  · intro h
    subst h
    decide

/-- Claim C1 amended: for a record produced by the importer in which every
job has exactly one role and every language that carries a `cefrScores`
map has exactly the five standard CEFR dimension keys, exporting and
re-importing preserves the job count, the study count, the CEFR dimension
key sets (every re-imported language carries exactly the five standard
keys, hence the same key set as every original carrier), and the
presence/absence of `profilePicture`. -/
theorem c1_roundtrip (d : EDoc)
    (h1 : ∀ j ∈ (importMac d).jobs, j.roles.length = 1)
    (h2 : ∀ l ∈ (importMac d).languages, ∀ s, l.cefrScores = some s →
      dictKeys s = cefDims) :
    (importMac (exportEDoc (importMac d))).jobs.length = (importMac d).jobs.length ∧
    (importMac (exportEDoc (importMac d))).studies.length =
      (importMac d).studies.length ∧
    (∀ l2 ∈ (importMac (exportEDoc (importMac d))).languages,
      ∃ s2, l2.cefrScores = some s2 ∧ dictKeys s2 = cefDims) ∧
    (∀ l ∈ (importMac d).languages, ∀ s, l.cefrScores = some s →
      ∀ l2 ∈ (importMac (exportEDoc (importMac d))).languages, ∀ s2,
        l2.cefrScores = some s2 → dictKeys s2 = dictKeys s) ∧
    ((importMac (exportEDoc (importMac d))).profilePicture = "" ↔
      (importMac d).profilePicture = "") := by
  set mac := importMac d with hmac
  have hjobs : (importMac (exportEDoc mac)).jobs.length = mac.jobs.length := by
    have e1 : (importMac (exportEDoc mac)).jobs.length
        = (exportEDoc mac).employers.length := by
      show ((exportEDoc mac).employers.map importJob).length = _
      rw [List.length_map]
    have e2 : (exportEDoc mac).employers
        = mac.jobs.flatMap (fun j => j.roles.map (exportEmployer j)) := rfl
    rw [e1, e2, length_flatMap_one _ _ (fun j hj => by
      rw [List.length_map]; exact h1 j hj)]
  have hstudies : (importMac (exportEDoc mac)).studies.length
      = mac.studies.length := by
    show ((exportEDoc mac).educations.map importStudy).length = _
    show ((mac.studies.map exportEducation).map importStudy).length = _
    rw [List.length_map, List.length_map]
  have hlang : ∀ l2 ∈ (importMac (exportEDoc mac)).languages,
      ∃ s2, l2.cefrScores = some s2 ∧ dictKeys s2 = cefDims := by
    show ∀ l2 ∈ importLanguages (exportEDoc mac), _
    have e : importLanguages (exportEDoc mac)
        = List.foldl applyCompetency [] (mac.languages.map exportCompetency) := rfl
    rw [e]
    refine foldl_preserve
      (fun (langs : List MacLanguage) => ∀ l2 ∈ langs,
        ∃ s2, l2.cefrScores = some s2 ∧ dictKeys s2 = cefDims)
      _ _ _ (by intro l2 hl2; cases hl2) ?_
    intro langs c hc hQ
    obtain ⟨l, hl, rfl⟩ := List.mem_map.mp hc
    have hl2 : l ∈ importLanguages d := by
      rw [hmac] at hl
      exact hl
    have hvals : ∀ s, l.cefrScores = some s → ∀ kv ∈ s, kv.2 ≠ "" :=
      fun s hcs => importLanguages_vals d l hl2 s hcs
    have hkeys := exportComp_keys l hvals
    unfold applyCompetency
    split
    · split
      · dsimp only
        split
        · exact attachCefr_keys _ _ hkeys langs hQ
        · exact hQ
      · exact hQ
    · exact hQ
  refine ⟨hjobs, hstudies, hlang, ?_, ?_⟩
  · intro l hl s hcs l2 hl2 s2 hcs2
    obtain ⟨s2a, he, hk⟩ := hlang l2 hl2
    rw [hcs2] at he
    simp only [Option.some.injEq] at he
    subst he
    rw [hk, h2 l hl s hcs]
  · constructor
    · intro h0
      by_contra hne
      have hpic : exportPicStr mac.profilePicture ≠ "" :=
        fun he => hne ((exportPicStr_empty_iff _).mp he)
      have e : (importMac (exportEDoc mac)).profilePicture
          = exportPicStr mac.profilePicture := by
        show importPicture (exportEDoc mac) = _
        unfold importPicture exportEDoc
        dsimp only
        rw [if_pos hpic]
        simp [hpic]
      exact hpic (e ▸ h0)
    · intro h0
      have hpic : exportPicStr mac.profilePicture = "" := by
        rw [h0]
        decide
      show importPicture (exportEDoc mac) = ""
      unfold importPicture exportEDoc
      dsimp only
      rw [if_neg (by simp [hpic])]
      rfl

/-- Claim C1 counterexample: the exporter emits one `EmployerHistory` per
role, so a document whose single employer holds two positions re-imports
with two jobs, not one — the round trip does not preserve the job count as
claimed. -/
theorem c1_counterexample :
    (importMac c1CounterDoc).jobs.length = 1 ∧
    (importMac (exportEDoc (importMac c1CounterDoc))).jobs.length = 2 :=
  ⟨by decide, by decide⟩

/-- Claim C1 witness: the amended round-trip statement applied to a
concrete well-behaved document. -/
theorem c1_witness :
    (∀ j ∈ (importMac c1WitnessDoc).jobs, j.roles.length = 1) ∧
    (∀ l ∈ (importMac c1WitnessDoc).languages, ∀ s, l.cefrScores = some s →
      dictKeys s = cefDims) ∧
    ((importMac (exportEDoc (importMac c1WitnessDoc))).jobs.length
        = (importMac c1WitnessDoc).jobs.length ∧
      (importMac (exportEDoc (importMac c1WitnessDoc))).studies.length
        = (importMac c1WitnessDoc).studies.length ∧
      (∀ l2 ∈ (importMac (exportEDoc (importMac c1WitnessDoc))).languages,
        ∃ s2, l2.cefrScores = some s2 ∧ dictKeys s2 = cefDims) ∧
      (∀ l ∈ (importMac c1WitnessDoc).languages, ∀ s, l.cefrScores = some s →
        ∀ l2 ∈ (importMac (exportEDoc (importMac c1WitnessDoc))).languages, ∀ s2,
          l2.cefrScores = some s2 → dictKeys s2 = dictKeys s) ∧
      ((importMac (exportEDoc (importMac c1WitnessDoc))).profilePicture = "" ↔
        (importMac c1WitnessDoc).profilePicture = "")) := by
  have h2 : ∀ l ∈ (importMac c1WitnessDoc).languages, ∀ s, l.cefrScores = some s →
      dictKeys s = cefDims := by
    intro l hl s hcs
    have hlangs : (importMac c1WitnessDoc).languages =
        [{ name := "fre", fullName := "fre",
           level := "Native or bilingual proficiency",
           cefrScores := some [("CEF-Understanding-Listening", "C2"),
             ("CEF-Understanding-Reading", "C2"), ("CEF-Speaking-Interaction", "C2"),
             ("CEF-Speaking-Production", "C2"), ("CEF-Writing-Production", "C2")] }] := by
      decide
    rw [hlangs] at hl
    simp only [List.mem_singleton] at hl
    subst hl
    simp only [Option.some.injEq] at hcs
    subst hcs
    decide
  exact ⟨by decide, h2, c1_roundtrip c1WitnessDoc (by decide) h2⟩
